import Mathlib

/-!
The argument interpreter of the `install` command, `cmInstallCommand`.

A shallow embedding of `Source/cmInstallCommand.cxx`.

* `std::vector<std::string>` is `List String`; the loops over `args` are
  structural recursions over the remaining tokens.
* The collaborators the file calls but does not define (`cmSystemTools`,
  `cmMakefile`, the platform test of the preprocessor) are the fields of `Env`.
* `m_Makefile->AddInstallGenerator` appends to a list of `InstallGenerator`;
  every handler takes the list before the call and returns the list after it.
* `SetError(msg); return false;` is `error := some e`, where `e` names the call
  site and `InstallError.message e` is the text the source builds;
  `return true;` is `error := none`.
-/

namespace cmInstallCommand

/-! ## Data model -/

/-- Modelled from the spec: the type tag of `cmTarget` (`cmTarget.h` is not part
of the sources). The four installable kinds are the ones the source names; every
other kind is `OTHER`. -/
inductive TargetType where
  | EXECUTABLE
  | STATIC_LIBRARY
  | SHARED_LIBRARY
  | MODULE_LIBRARY
  | OTHER
  deriving DecidableEq, Repr

/-- The part of `cmTarget` the command reads: `GetName()` and `GetType()`. -/
structure cmTarget where
  GetName : String
  GetType : TargetType
  deriving DecidableEq, Repr

/-- The collaborators of the command. -/
structure Env where
  /-- The predicate `cmSystemTools::FileIsFullPath`. -/
  FileIsFullPath : String → Bool
  /-- The predicate `cmSystemTools::FileIsDirectory`. -/
  FileIsDirectory : String → Bool
  /-- The function `cmSystemTools::ConvertToUnixSlashes`, as a function of the string it rewrites. -/
  ConvertToUnixSlashes : String → String
  /-- The accessor `m_Makefile->GetCurrentDirectory()`. -/
  GetCurrentDirectory : String
  /-- The lookup `m_Makefile->FindTarget`; `none` is the null pointer. -/
  FindTarget : String → Option cmTarget
  /-- True when `defined(_WIN32) || defined(__CYGWIN__)` holds. -/
  dllPlatform : Bool

/-- The install generators the command constructs and registers. -/
inductive InstallGenerator where
  /-- The object `cmInstallScriptGenerator(script)`. -/
  | script (path : String)
  /-- The object `cmInstallTargetGenerator(target, dest, implib)`; `implib` is `false`
  where the source leaves the third argument out. -/
  | target (t : cmTarget) (dest : String) (implib : Bool)
  /-- The object `cmInstallFilesGenerator(files, dest, programs, permissions, rename)`. -/
  | files (files : List String) (dest : String) (programs : Bool)
      (permissions : String) (rename : String)
  deriving DecidableEq, Repr

/-- One constructor for each `SetError` call of the source. -/
inductive InstallError where
  /-- UnknownMode, line 52. -/
  | unknownMode (arg0 : String)
  /-- NotAFile in script mode, line 80. -/
  | scriptDirectory
  /-- MissingValue, line 89. -/
  | scriptNoValue
  /-- InvalidTargetType, line 142. -/
  | invalidTargetType (arg : String)
  /-- UnknownTarget, line 155. -/
  | unknownTarget (arg : String)
  /-- UnknownArgument in targets mode, line 178. -/
  | targetsUnknownArgument (arg : String)
  /-- MissingDestination in targets mode, line 191. -/
  | targetsNoDestination
  /-- MissingLibraryDestination, line 252; `static` tells a static library from a module. -/
  | noLibraryDestination (static : Bool) (name : String)
  /-- MissingRuntimeDestination, line 278. -/
  | noRuntimeDestination (name : String)
  /-- NotAFile in files mode, line 349. -/
  | filesDirectory (arg0 arg : String)
  /-- InvalidPermission, line 368. -/
  | invalidPermission (arg0 arg : String)
  /-- UnknownArgument in files mode, line 383. -/
  | filesUnknownArgument (arg0 arg : String)
  /-- MissingDestination in files mode, line 398. -/
  | filesNoDestination (arg0 : String)
  /-- RenameRequiresSingleFile, line 406. -/
  | renameMultipleFiles (arg0 : String)
  deriving DecidableEq, Repr

/-- The text passed to `SetError` at each call site. -/
def InstallError.message : InstallError → String
  | .unknownMode arg0 => "called with unknown mode " ++ arg0
  | .scriptDirectory => "given a directory as value of SCRIPT argument."
  | .scriptNoValue => "given no value for SCRIPT argument."
  | .invalidTargetType arg =>
      "TARGETS given target \"" ++ arg ++ "\" which is not an executable, library, or module."
  | .unknownTarget arg =>
      "TARGETS given target \"" ++ arg ++ "\" which does not exist in this directory."
  | .targetsUnknownArgument arg => "TARGETS given unknown argument \"" ++ arg ++ "\"."
  | .targetsNoDestination => "TARGETS given no DESTINATION!"
  | .noLibraryDestination static name =>
      "TARGETS given no LIBRARY DESTINATION for "
        ++ (if static then "static library" else "module")
        ++ " target \"" ++ name ++ "\"."
  | .noRuntimeDestination name =>
      "TARGETS given no RUNTIME DESTINATION for executable target \"" ++ name ++ "\"."
  | .filesDirectory arg0 arg => arg0 ++ " given directory \"" ++ arg ++ "\" to install."
  | .invalidPermission arg0 arg => arg0 ++ " given invalid permission \"" ++ arg ++ "\"."
  | .filesUnknownArgument arg0 arg => arg0 ++ " given unknown argument \"" ++ arg ++ "\"."
  | .filesNoDestination arg0 => arg0 ++ " given no DESTINATION!"
  | .renameMultipleFiles arg0 => arg0 ++ " given RENAME option with more than one file."

/-- What a handler leaves behind: the error it set (`none` when it returned
`true`) and the install generators of the makefile after the call. -/
structure Result where
  error : Option InstallError
  generators : List InstallGenerator
  deriving DecidableEq, Repr

/-! ## ComputeDestination and CheckPermissions -/

/-- The value of a `const char*` obtained with `c_str()`: read as a C string, as by
`dest = destination` and `dest += destination` (lines 432, 438), it is the characters
before the first NUL character (character 0). -/
def c_str (s : String) : String :=
  String.mk (s.data.takeWhile (fun c => c != Char.ofNat 0))

/-- The member `ComputeDestination` (lines 424-449); `destination` is the C string the
`const char*` points to (`none` for the null pointer) and the result is the value left
in `dest`. -/
def ComputeDestination (env : Env) (destination : Option String) : String :=
  match destination with
  | some d =>
      if env.FileIsFullPath d then env.ConvertToUnixSlashes d
      else env.ConvertToUnixSlashes ("$\x7bCMAKE_INSTALL_PREFIX\x7d/" ++ d)
  | none => ""

/-- The table of valid permissions (lines 456-462). -/
def permissionTable : List String :=
  ["OWNER_READ", "OWNER_WRITE", "OWNER_EXECUTE",
   "GROUP_READ", "GROUP_WRITE", "GROUP_EXECUTE",
   "WORLD_READ", "WORLD_WRITE", "WORLD_EXECUTE",
   "SETUID", "SETGID"]

/-- The loop of `CheckPermissions` over the rest of the table (lines 465-477). -/
def CheckPermissions.loop (arg permissions : String) : List String → Bool × String
  | [] => (false, permissions)
  | valid :: rest =>
      if arg = valid then (true, permissions ++ " " ++ arg)
      else CheckPermissions.loop arg permissions rest

/-- The member `CheckPermissions` (lines 452-478): the returned flag and the accumulator after the call. -/
def CheckPermissions (arg permissions : String) : Bool × String :=
  CheckPermissions.loop arg permissions permissionTable

/-! ## SCRIPT mode -/

/-- The loop of `HandleScriptMode` (lines 62-92) over the tokens still to read,
with the current `doing_script` flag and the generators registered so far. -/
def HandleScriptMode.loop (env : Env) :
    List String → Bool → List InstallGenerator → Result
  | [], doing_script, gens =>
      if doing_script then ⟨some .scriptNoValue, gens⟩ else ⟨none, gens⟩
  | a :: rest, doing_script, gens =>
      if a = "SCRIPT" then HandleScriptMode.loop env rest true gens
      else if doing_script then
        let script :=
          if !env.FileIsFullPath a then env.GetCurrentDirectory ++ "/" ++ a else a
        if env.FileIsDirectory script then ⟨some .scriptDirectory, gens⟩
        else HandleScriptMode.loop env rest false (gens ++ [.script script])
      else HandleScriptMode.loop env rest doing_script gens

/-- The member `HandleScriptMode` (lines 59-93); the scan starts at `args[0]`. -/
def HandleScriptMode (env : Env) (args : List String) (gens : List InstallGenerator) : Result :=
  HandleScriptMode.loop env args false gens

/-! ## TARGETS mode -/

/-- The locals of `HandleTargetsMode` (lines 99-105); a destination is the C string
its `const char*` points to, `none` for the null pointer. -/
structure TargetsState where
  doing_targets : Bool
  doing_destination : Bool
  library_settings : Bool
  runtime_settings : Bool
  targets : List cmTarget
  library_destination : Option String
  runtime_destination : Option String
  deriving DecidableEq, Repr

/-- The initial values of the locals (lines 99-105). -/
def TargetsState.init : TargetsState :=
  { doing_targets := true, doing_destination := false,
    library_settings := true, runtime_settings := true,
    targets := [], library_destination := none, runtime_destination := none }

/-- One iteration of the argument loop of `HandleTargetsMode` (lines 108-181). -/
def HandleTargetsMode.step (env : Env) (st : TargetsState) (a : String) :
    Except InstallError TargetsState :=
  if a = "DESTINATION" then
    .ok { st with doing_targets := false, doing_destination := true }
  else if a = "LIBRARY" then
    .ok { st with doing_targets := false, doing_destination := false,
                  library_settings := true, runtime_settings := false }
  else if a = "RUNTIME" then
    .ok { st with doing_targets := false, doing_destination := false,
                  library_settings := false, runtime_settings := true }
  else if st.doing_targets then
    match env.FindTarget a with
    | some target =>
        if target.GetType ≠ .EXECUTABLE ∧ target.GetType ≠ .STATIC_LIBRARY ∧
           target.GetType ≠ .SHARED_LIBRARY ∧ target.GetType ≠ .MODULE_LIBRARY then
          .error (.invalidTargetType a)
        else .ok { st with targets := st.targets ++ [target] }
    | none => .error (.unknownTarget a)
  else if st.doing_destination then
    let st1 :=
      if st.library_settings then { st with library_destination := some (c_str a) } else st
    let st2 :=
      if st.runtime_settings then { st1 with runtime_destination := some (c_str a) } else st1
    .ok { st2 with doing_destination := false }
  else .error (.targetsUnknownArgument a)

/-- The argument loop of `HandleTargetsMode` (lines 106-182) over the tokens still to read. -/
def HandleTargetsMode.parse (env : Env) : List String → TargetsState → Except InstallError TargetsState
  | [], st => .ok st
  | a :: rest, st =>
      match HandleTargetsMode.step env st a with
      | .error e => .error e
      | .ok st1 => HandleTargetsMode.parse env rest st1

/-- The generation loop of `HandleTargetsMode` (lines 202-292) over the targets still
to handle; `library_dest` and `runtime_dest` are the computed destination paths. -/
def HandleTargetsMode.generate (env : Env)
    (library_destination runtime_destination : Option String)
    (library_dest runtime_dest : String) :
    List cmTarget → List InstallGenerator → Result
  | [], gens => ⟨none, gens⟩
  | target :: rest, gens =>
      match target.GetType with
      | .SHARED_LIBRARY =>
          if env.dllPlatform then
            let gens1 :=
              if library_destination.isSome then gens ++ [.target target library_dest true]
              else gens
            let gens2 :=
              if runtime_destination.isSome then gens1 ++ [.target target runtime_dest false]
              else gens1
            HandleTargetsMode.generate env library_destination runtime_destination
              library_dest runtime_dest rest gens2
          else
            let gens1 :=
              if library_destination.isSome then gens ++ [.target target library_dest false]
              else gens
            HandleTargetsMode.generate env library_destination runtime_destination
              library_dest runtime_dest rest gens1
      | .STATIC_LIBRARY =>
          if library_destination.isSome then
            HandleTargetsMode.generate env library_destination runtime_destination
              library_dest runtime_dest rest (gens ++ [.target target library_dest false])
          else ⟨some (.noLibraryDestination true target.GetName), gens⟩
      | .MODULE_LIBRARY =>
          if library_destination.isSome then
            HandleTargetsMode.generate env library_destination runtime_destination
              library_dest runtime_dest rest (gens ++ [.target target library_dest false])
          else ⟨some (.noLibraryDestination false target.GetName), gens⟩
      | .EXECUTABLE =>
          if runtime_destination.isSome then
            HandleTargetsMode.generate env library_destination runtime_destination
              library_dest runtime_dest rest (gens ++ [.target target runtime_dest false])
          else ⟨some (.noRuntimeDestination target.GetName), gens⟩
      | .OTHER =>
          HandleTargetsMode.generate env library_destination runtime_destination
            library_dest runtime_dest rest gens

/-- The member `HandleTargetsMode` (lines 96-293); the argument loop starts at `args[1]`. -/
def HandleTargetsMode (env : Env) (args : List String) (gens : List InstallGenerator) : Result :=
  match HandleTargetsMode.parse env (args.drop 1) TargetsState.init with
  | .error e => ⟨some e, gens⟩
  | .ok st =>
      if st.targets.isEmpty then ⟨none, gens⟩
      else if st.library_destination.isNone ∧ st.runtime_destination.isNone then
        ⟨some .targetsNoDestination, gens⟩
      else
        HandleTargetsMode.generate env st.library_destination st.runtime_destination
          (ComputeDestination env st.library_destination)
          (ComputeDestination env st.runtime_destination) st.targets gens

/-! ## FILES and PROGRAMS mode -/

/-- The locals of `HandleFilesMode` (lines 300-307); the destination is the C string
its `const char*` points to, `none` for the null pointer. -/
structure FilesState where
  doing_files : Bool
  doing_destination : Bool
  doing_permissions : Bool
  doing_rename : Bool
  files : List String
  destination : Option String
  rename : String
  permissions : String
  deriving DecidableEq, Repr

/-- The initial values of the locals (lines 300-307). -/
def FilesState.init : FilesState :=
  { doing_files := true, doing_destination := false, doing_permissions := false,
    doing_rename := false, files := [], destination := none, rename := "",
    permissions := "" }

/-- One iteration of the argument loop of `HandleFilesMode` (lines 310-386);
`arg0` is `args[0]`. -/
def HandleFilesMode.step (env : Env) (arg0 : String) (st : FilesState) (a : String) :
    Except InstallError FilesState :=
  if a = "DESTINATION" then
    .ok { st with doing_files := false, doing_destination := true,
                  doing_permissions := false, doing_rename := false }
  else if a = "PERMISSIONS" then
    .ok { st with doing_files := false, doing_destination := false,
                  doing_permissions := true, doing_rename := false }
  else if a = "RENAME" then
    .ok { st with doing_files := false, doing_destination := false,
                  doing_permissions := false, doing_rename := true }
  else if st.doing_files then
    let file := if !env.FileIsFullPath a then env.GetCurrentDirectory ++ "/" ++ a else a
    if env.FileIsDirectory file then .error (.filesDirectory arg0 a)
    else .ok { st with files := st.files ++ [file] }
  else if st.doing_destination then
    .ok { st with destination := some (c_str a), doing_destination := false }
  else if st.doing_permissions then
    if !(CheckPermissions a st.permissions).1 then .error (.invalidPermission arg0 a)
    else .ok { st with permissions := (CheckPermissions a st.permissions).2 }
  else if st.doing_rename then
    .ok { st with rename := a, doing_rename := false }
  else .error (.filesUnknownArgument arg0 a)

/-- The argument loop of `HandleFilesMode` (lines 308-387) over the tokens still to read. -/
def HandleFilesMode.parse (env : Env) (arg0 : String) :
    List String → FilesState → Except InstallError FilesState
  | [], st => .ok st
  | a :: rest, st =>
      match HandleFilesMode.step env arg0 st a with
      | .error e => .error e
      | .ok st1 => HandleFilesMode.parse env arg0 rest st1

/-- The member `HandleFilesMode` (lines 296-421). The source reads `args[0]` without a
check; its only caller passes a non-empty vector, and the empty one reads as `""` here. -/
def HandleFilesMode (env : Env) (args : List String) (gens : List InstallGenerator) : Result :=
  let arg0 := args.headD ""
  let programs : Bool := arg0 = "PROGRAMS"
  match HandleFilesMode.parse env arg0 (args.drop 1) FilesState.init with
  | .error e => ⟨some e, gens⟩
  | .ok st =>
      if st.files.isEmpty then ⟨none, gens⟩
      else if st.destination.isNone then ⟨some (.filesNoDestination arg0), gens⟩
      else if st.rename ≠ "" ∧ st.files.length > 1 then
        ⟨some (.renameMultipleFiles arg0), gens⟩
      else
        ⟨none, gens ++ [.files st.files (ComputeDestination env st.destination) programs
                          st.permissions st.rename]⟩

/-! ## The dispatcher -/

/-- The member `InitialPass` (lines 24-56). -/
def InitialPass (env : Env) (args : List String) (gens : List InstallGenerator) : Result :=
  match args with
  | [] => ⟨none, gens⟩
  | arg0 :: _ =>
      if arg0 = "SCRIPT" then HandleScriptMode env args gens
      else if arg0 = "TARGETS" then HandleTargetsMode env args gens
      else if arg0 = "FILES" then HandleFilesMode env args gens
      else if arg0 = "PROGRAMS" then HandleFilesMode env args gens
      else ⟨some (.unknownMode arg0), gens⟩

/-! ## Concrete environments used by the closed statements -/

/-- A directory `/src` with no sub-directory; a path is full when it starts with `/`. -/
def env0 (dll : Bool) : Env :=
  { FileIsFullPath := fun p => p.data.head? = some '/'
    FileIsDirectory := fun _ => false
    ConvertToUnixSlashes := fun p => p
    GetCurrentDirectory := "/src"
    FindTarget := fun n =>
      if n = "myexe" then some ⟨"myexe", .EXECUTABLE⟩
      else if n = "mylib" then some ⟨"mylib", .SHARED_LIBRARY⟩
      else if n = "mystatic" then some ⟨"mystatic", .STATIC_LIBRARY⟩
      else if n = "mymod" then some ⟨"mymod", .MODULE_LIBRARY⟩
      else if n = "myutil" then some ⟨"myutil", .OTHER⟩
      else if n = "LIBRARY" then some ⟨"LIBRARY", .SHARED_LIBRARY⟩
      else none
    dllPlatform := dll }

/-! ## Definitions that follow the wording of the specification -/

/-- Spec wording: a relative token is joined with the declaring directory, an
absolute one is kept verbatim. -/
def resolvedPath (env : Env) (a : String) : String :=
  if env.FileIsFullPath a then a else env.GetCurrentDirectory ++ "/" ++ a

/-- Spec wording (script mode): the tokens that are not `SCRIPT` and are immediately
preceded by a `SCRIPT` token, in token order. -/
def scriptValues : List String → List String
  | a :: b :: rest =>
      if a = "SCRIPT" ∧ b ≠ "SCRIPT" then b :: scriptValues (b :: rest)
      else scriptValues (b :: rest)
  | _ => []

/-- Spec wording (script mode): one `ScriptRule` for each value of a `SCRIPT` pair. -/
def scriptRules (env : Env) (tokens : List String) : List InstallGenerator :=
  (scriptValues tokens).map (fun a => InstallGenerator.script (resolvedPath env a))

/-- Spec wording (targets mode, per-target rule generation): the rules one target
yields. `library_dest` and `runtime_dest` are the resolved destinations. -/
def targetRules (dll : Bool) (library_destination runtime_destination : Option String)
    (library_dest runtime_dest : String) (t : cmTarget) : List InstallGenerator :=
  match t.GetType with
  | .EXECUTABLE =>
      if runtime_destination.isSome then [InstallGenerator.target t runtime_dest false] else []
  | .STATIC_LIBRARY =>
      if library_destination.isSome then [InstallGenerator.target t library_dest false] else []
  | .MODULE_LIBRARY =>
      if library_destination.isSome then [InstallGenerator.target t library_dest false] else []
  | .SHARED_LIBRARY =>
      if dll then
        (if library_destination.isSome then [InstallGenerator.target t library_dest true]
          else [])
        ++ (if runtime_destination.isSome then [InstallGenerator.target t runtime_dest false]
          else [])
      else
        if library_destination.isSome then [InstallGenerator.target t library_dest false]
        else []
  | .OTHER => []

/-- Spec wording (targets mode, per-target rule generation): the error one target
raises, if any. -/
def targetError (library_destination runtime_destination : Option String) (t : cmTarget) :
    Option InstallError :=
  match t.GetType with
  | .EXECUTABLE =>
      if runtime_destination.isSome then none
      else some (InstallError.noRuntimeDestination t.GetName)
  | .STATIC_LIBRARY =>
      if library_destination.isSome then none
      else some (InstallError.noLibraryDestination true t.GetName)
  | .MODULE_LIBRARY =>
      if library_destination.isSome then none
      else some (InstallError.noLibraryDestination false t.GetName)
  | .SHARED_LIBRARY => none
  | .OTHER => none

/-- The keywords of files mode. -/
def isFilesKeyword (a : String) : Bool :=
  decide (a = "DESTINATION") || decide (a = "PERMISSIONS") || decide (a = "RENAME")

/-- The keywords of targets mode. -/
def isTargetsKeyword (a : String) : Bool :=
  decide (a = "DESTINATION") || decide (a = "LIBRARY") || decide (a = "RUNTIME")

/-- Spec wording: the tokens up to the next keyword. -/
def tokenRun (kw : String → Bool) (l : List String) : List String :=
  l.takeWhile (fun a => !kw a)

/-- Spec wording: the values of keyword `k`, in token order: for each occurrence of `k`
the token right after it, when that token is not a keyword. -/
def keywordValues (kw : String → Bool) (k : String) : List String → List String
  | [] => []
  | a :: rest =>
      (if a = k then (tokenRun kw rest).head?.toList else []) ++ keywordValues kw k rest

/-- Spec wording: the tokens collected under keyword `k`, in token order: for each
occurrence of `k` all tokens after it and before the next keyword. -/
def keywordRuns (kw : String → Bool) (k : String) : List String → List String
  | [] => []
  | a :: rest => (if a = k then tokenRun kw rest else []) ++ keywordRuns kw k rest

/-- Spec wording: the concatenation, in order, of `" " + p` for every permission token `p`. -/
def joinPermissions : List String → String
  | [] => ""
  | p :: rest => " " ++ p ++ joinPermissions rest

/-- At most one of the four sub-state flags of files mode is set. -/
def FilesState.Exclusive (st : FilesState) : Prop :=
  (st.doing_files = true ∧ st.doing_destination = false ∧
      st.doing_permissions = false ∧ st.doing_rename = false) ∨
  (st.doing_files = false ∧ st.doing_destination = true ∧
      st.doing_permissions = false ∧ st.doing_rename = false) ∨
  (st.doing_files = false ∧ st.doing_destination = false ∧
      st.doing_permissions = true ∧ st.doing_rename = false) ∨
  (st.doing_files = false ∧ st.doing_destination = false ∧
      st.doing_permissions = false ∧ st.doing_rename = true) ∨
  (st.doing_files = false ∧ st.doing_destination = false ∧
      st.doing_permissions = false ∧ st.doing_rename = false)

/-- Spec wording: the four installable kinds of a target. -/
def cmTarget.Installable (t : cmTarget) : Prop :=
  t.GetType = .EXECUTABLE ∨ t.GetType = .STATIC_LIBRARY ∨
    t.GetType = .SHARED_LIBRARY ∨ t.GetType = .MODULE_LIBRARY

/-- Spec wording (per-kind destination requirement): the target is an executable while
no runtime destination was set, or a static library or module while no library
destination was set. -/
def lacksDestination (library_destination runtime_destination : Option String)
    (t : cmTarget) : Prop :=
  (t.GetType = .EXECUTABLE ∧ runtime_destination = none) ∨
  ((t.GetType = .STATIC_LIBRARY ∨ t.GetType = .MODULE_LIBRARY) ∧ library_destination = none)

/-- The install-prefix placeholder that `ComputeDestination` puts before a relative
destination (line 437, without the separator). -/
def installPrefixPlaceholder : String := "$\x7bCMAKE_INSTALL_PREFIX\x7d"

/-- Modelled from the spec: `cmSystemTools::ConvertToUnixSlashes`, which is not part of
the sources. The spec says the result is "normalized to a canonical slash form with no
trailing separator" and the source says it "also removes trailing slashes": every
backslash (character 92) becomes a slash, then the trailing slashes are removed. -/
def ConvertToUnixSlashesSpec (path : String) : String :=
  String.mk
    ((path.data.map (fun c => if c = Char.ofNat 92 then '/' else c)).rdropWhile
      (fun c => c == '/'))

/-- The environment `env0` on a non-DLL platform, with the slash normalisation of the spec. -/
def env1 : Env :=
  { FileIsFullPath := (env0 false).FileIsFullPath
    FileIsDirectory := (env0 false).FileIsDirectory
    ConvertToUnixSlashes := ConvertToUnixSlashesSpec
    GetCurrentDirectory := (env0 false).GetCurrentDirectory
    FindTarget := (env0 false).FindTarget
    dllPlatform := false }

/-! ## Script mode: what a run registers -/

theorem scriptValues_cons_cons (a b : String) (rest : List String) :
    scriptValues (a :: b :: rest)
      = if a = "SCRIPT" ∧ b ≠ "SCRIPT" then b :: scriptValues (b :: rest)
        else scriptValues (b :: rest) := rfl

theorem scriptRules_single (env : Env) (a : String) : scriptRules env [a] = [] := rfl

theorem scriptRules_cons_script (env : Env) (p : String) (l : List String) :
    scriptRules env (p :: "SCRIPT" :: l) = scriptRules env ("SCRIPT" :: l) := by
  simp [scriptRules, scriptValues_cons_cons]

theorem scriptRules_cons_value (env : Env) (b : String) (l : List String)
    (hb : b ≠ "SCRIPT") :
    scriptRules env ("SCRIPT" :: b :: l)
      = InstallGenerator.script (resolvedPath env b) :: scriptRules env (b :: l) := by
  simp [scriptRules, scriptValues_cons_cons, hb]

theorem scriptRules_cons_other (env : Env) (p b : String) (l : List String)
    (hp : p ≠ "SCRIPT") :
    scriptRules env (p :: b :: l) = scriptRules env (b :: l) := by
  simp [scriptRules, scriptValues_cons_cons, hp]

theorem resolvedPath_eq (env : Env) (a : String) :
    (if !env.FileIsFullPath a then env.GetCurrentDirectory ++ "/" ++ a else a)
      = resolvedPath env a := by
  unfold resolvedPath
  cases env.FileIsFullPath a <;> simp

theorem resolvedPath_eq_false (env : Env) (a : String) :
    (if env.FileIsFullPath a = false then env.GetCurrentDirectory ++ "/" ++ a else a)
      = resolvedPath env a := by
  unfold resolvedPath
  cases env.FileIsFullPath a <;> simp

/-- The three ways the loop of script mode ends, with the tokens `p :: l` where `p` is
the token read last: success, a trailing `SCRIPT`, or a directory given as a value. -/
theorem HandleScriptMode_loop_spec (env : Env) (l : List String) :
    ∀ (p : String) (gens : List InstallGenerator),
      ((HandleScriptMode.loop env l (decide (p = "SCRIPT")) gens).error = none ∧
        (p :: l).getLast? ≠ some "SCRIPT" ∧
        (HandleScriptMode.loop env l (decide (p = "SCRIPT")) gens).generators
          = gens ++ scriptRules env (p :: l)) ∨
      ((HandleScriptMode.loop env l (decide (p = "SCRIPT")) gens).error
          = some InstallError.scriptNoValue ∧
        (p :: l).getLast? = some "SCRIPT" ∧
        (HandleScriptMode.loop env l (decide (p = "SCRIPT")) gens).generators
          = gens ++ scriptRules env (p :: l)) ∨
      ((HandleScriptMode.loop env l (decide (p = "SCRIPT")) gens).error
          = some InstallError.scriptDirectory ∧
        ∃ pre a post, p :: l = pre ++ "SCRIPT" :: a :: post ∧ a ≠ "SCRIPT" ∧
          env.FileIsDirectory (resolvedPath env a) = true ∧
          (HandleScriptMode.loop env l (decide (p = "SCRIPT")) gens).generators
            = gens ++ scriptRules env (pre ++ ["SCRIPT"])) := by
  induction l with
  | nil =>
      intro p gens
      by_cases hp : p = "SCRIPT"
      · right; left
        simp [HandleScriptMode.loop, hp, scriptRules_single]
      · left
        simp [HandleScriptMode.loop, hp, scriptRules_single]
  | cons b rest ih =>
      intro p gens
      by_cases hb : b = "SCRIPT"
      · subst hb
        have hloop : HandleScriptMode.loop env ("SCRIPT" :: rest) (decide (p = "SCRIPT")) gens
            = HandleScriptMode.loop env rest (decide (("SCRIPT" : String) = "SCRIPT")) gens := by
          simp [HandleScriptMode.loop]
        rw [hloop, scriptRules_cons_script]
        rcases ih "SCRIPT" gens with h | h | ⟨he, pre, a, post, hsplit, ha, hdir, hg⟩
        · left
          refine ⟨h.1, ?_, h.2.2⟩
          simpa [List.getLast?_cons_cons] using h.2.1
        · right; left
          refine ⟨h.1, ?_, h.2.2⟩
          simpa [List.getLast?_cons_cons] using h.2.1
        · right; right
          refine ⟨he, p :: pre, a, post, by simp [hsplit], ha, hdir, ?_⟩
          rw [hg]
          cases pre with
          | nil => simp [scriptRules_cons_script, scriptRules_single]
          | cons q pre1 =>
              have hq : q = "SCRIPT" := by
                have := congrArg List.head? hsplit
                simpa using this.symm
              subst hq
              simp [scriptRules_cons_script]
      · by_cases hp : p = "SCRIPT"
        · subst hp
          by_cases hdir : env.FileIsDirectory (resolvedPath env b) = true
          · right; right
            have hloop : HandleScriptMode.loop env (b :: rest)
                (decide (("SCRIPT" : String) = "SCRIPT")) gens
                = ⟨some InstallError.scriptDirectory, gens⟩ := by
              simp [HandleScriptMode.loop, hb, resolvedPath_eq_false, hdir]
            rw [hloop]
            exact ⟨rfl, [], b, rest, rfl, hb, hdir, by simp [scriptRules_single]⟩
          · have hloop : HandleScriptMode.loop env (b :: rest)
                (decide (("SCRIPT" : String) = "SCRIPT")) gens
                = HandleScriptMode.loop env rest (decide (b = "SCRIPT"))
                    (gens ++ [InstallGenerator.script (resolvedPath env b)]) := by
              simp [HandleScriptMode.loop, hb, resolvedPath_eq_false, hdir]
            rw [hloop, scriptRules_cons_value env b rest hb]
            rcases ih b (gens ++ [InstallGenerator.script (resolvedPath env b)])
              with h | h | ⟨he, pre, a, post, hsplit, ha, hd, hg⟩
            · left
              refine ⟨h.1, ?_, ?_⟩
              · simpa [List.getLast?_cons_cons] using h.2.1
              · rw [h.2.2]; simp
            · right; left
              refine ⟨h.1, ?_, ?_⟩
              · simpa [List.getLast?_cons_cons] using h.2.1
              · rw [h.2.2]; simp
            · right; right
              refine ⟨he, "SCRIPT" :: pre, a, post, by simp [hsplit], ha, hd, ?_⟩
              rw [hg]
              cases pre with
              | nil =>
                  have : b = "SCRIPT" := by
                    have := congrArg List.head? hsplit
                    simpa using this
                  exact absurd this hb
              | cons q pre1 =>
                  have hq : q = b := by
                    have := congrArg List.head? hsplit
                    simpa using this.symm
                  subst hq
                  simp [scriptRules_cons_value env q _ hb]
        · have hloop : HandleScriptMode.loop env (b :: rest) (decide (p = "SCRIPT")) gens
              = HandleScriptMode.loop env rest (decide (b = "SCRIPT")) gens := by
            simp [HandleScriptMode.loop, hb, hp]
          rw [hloop, scriptRules_cons_other env p b rest hp]
          rcases ih b gens with h | h | ⟨he, pre, a, post, hsplit, ha, hd, hg⟩
          · left
            refine ⟨h.1, ?_, h.2.2⟩
            simpa [List.getLast?_cons_cons] using h.2.1
          · right; left
            refine ⟨h.1, ?_, h.2.2⟩
            simpa [List.getLast?_cons_cons] using h.2.1
          · right; right
            refine ⟨he, p :: pre, a, post, by simp [hsplit], ha, hd, ?_⟩
            rw [hg]
            cases pre with
            | nil =>
                have : b = "SCRIPT" := by
                  have := congrArg List.head? hsplit
                  simpa using this
                exact absurd this hb
            | cons q pre1 =>
                simp [scriptRules_cons_other env p q _ hp]

/-! ## Targets mode: the generation loop -/

/-- A target that raises no error contributes its rules and the loop goes on. -/
theorem generate_cons_ok (env : Env) (ld rd : Option String) (l r : String)
    (t : cmTarget) (rest : List cmTarget) (gens : List InstallGenerator)
    (h : targetError ld rd t = none) :
    HandleTargetsMode.generate env ld rd l r (t :: rest) gens
      = HandleTargetsMode.generate env ld rd l r rest
          (gens ++ targetRules env.dllPlatform ld rd l r t) := by
  obtain ⟨name, ty⟩ := t
  cases ty <;> cases hl : ld.isSome <;> cases hr : rd.isSome <;>
    cases hd : env.dllPlatform <;>
    simp_all [HandleTargetsMode.generate, targetRules, targetError]

/-- A target that raises an error stops the loop with the rules registered so far. -/
theorem generate_cons_error (env : Env) (ld rd : Option String) (l r : String)
    (t : cmTarget) (rest : List cmTarget) (gens : List InstallGenerator)
    (e : InstallError) (h : targetError ld rd t = some e) :
    HandleTargetsMode.generate env ld rd l r (t :: rest) gens = ⟨some e, gens⟩ := by
  obtain ⟨name, ty⟩ := t
  cases ty <;> cases hl : ld.isSome <;> cases hr : rd.isSome <;>
    simp_all [HandleTargetsMode.generate, targetError]

/-- When no target raises an error the loop succeeds with the rules of all targets. -/
theorem generate_all_ok (env : Env) (ld rd : Option String) (l r : String)
    (ts : List cmTarget) :
    ∀ (gens : List InstallGenerator), (∀ t ∈ ts, targetError ld rd t = none) →
      HandleTargetsMode.generate env ld rd l r ts gens
        = ⟨none, gens ++ ts.flatMap (targetRules env.dllPlatform ld rd l r)⟩ := by
  induction ts with
  | nil => intro gens _; simp [HandleTargetsMode.generate]
  | cons t rest ih =>
      intro gens h
      rw [generate_cons_ok env ld rd l r t rest gens (h t (List.mem_cons_self _ _)),
        ih _ (fun u hu => h u (List.mem_cons_of_mem _ hu))]
      simp

/-- The loop stops at the first target that raises an error, with the rules of the
targets before it. -/
theorem generate_first_error (env : Env) (ld rd : Option String) (l r : String)
    (done : List cmTarget) (t : cmTarget) (rest : List cmTarget) (e : InstallError) :
    ∀ (gens : List InstallGenerator), (∀ d ∈ done, targetError ld rd d = none) →
      targetError ld rd t = some e →
      HandleTargetsMode.generate env ld rd l r (done ++ t :: rest) gens
        = ⟨some e, gens ++ done.flatMap (targetRules env.dllPlatform ld rd l r)⟩ := by
  induction done with
  | nil => intro gens _ ht; simp [generate_cons_error env ld rd l r t rest gens e ht]
  | cons d done1 ih =>
      intro gens h ht
      rw [List.cons_append,
        generate_cons_ok env ld rd l r d _ gens (h d (List.mem_cons_self _ _)),
        ih _ (fun u hu => h u (List.mem_cons_of_mem _ hu)) ht]
      simp

/-- The errors a target can raise during rule generation. -/
theorem targetError_some_kind (ld rd : Option String) (t : cmTarget) (e : InstallError)
    (h : targetError ld rd t = some e) :
    e = InstallError.noRuntimeDestination t.GetName ∨
      ∃ b, e = InstallError.noLibraryDestination b t.GetName := by
  obtain ⟨name, ty⟩ := t
  cases ty <;> simp [targetError] at h
  · exact Or.inl h.2.symm
  · exact Or.inr ⟨true, h.2.symm⟩
  · exact Or.inr ⟨false, h.2.symm⟩

/-- A list of targets either raises no error or splits at the first target that does. -/
theorem targets_split_first_error (ld rd : Option String) (ts : List cmTarget) :
    (∀ t ∈ ts, targetError ld rd t = none) ∨
    ∃ done t rest e, ts = done ++ t :: rest ∧ (∀ d ∈ done, targetError ld rd d = none) ∧
      targetError ld rd t = some e := by
  induction ts with
  | nil => left; simp
  | cons t rest ih =>
      cases ht : targetError ld rd t with
      | some e => right; exact ⟨[], t, rest, e, rfl, by simp, ht⟩
      | none =>
          rcases ih with h | ⟨done, u, rest1, e, hsplit, hdone, hu⟩
          · left
            intro x hx
            rcases List.mem_cons.1 hx with rfl | hx
            · exact ht
            · exact h x hx
          · right
            refine ⟨t :: done, u, rest1, e, by simp [hsplit], ?_, hu⟩
            intro x hx
            rcases List.mem_cons.1 hx with rfl | hx
            · exact ht
            · exact hdone x hx

/-! ## C1: script mode on failure -/

/-- C1 (counterexample): the directive `SCRIPT a SCRIPT` fails with MissingValue for the
trailing `SCRIPT`, and the ScriptRule of the earlier pair is registered all the same:
the registry after the call is not the (empty) registry before the call. -/
theorem C1_script_failure_keeps_earlier_rule :
    (["SCRIPT", "a", "SCRIPT"] : List String).head? = some "SCRIPT" ∧
    (HandleScriptMode (env0 false) ["SCRIPT", "a", "SCRIPT"] []).error
      = some InstallError.scriptNoValue ∧
    (HandleScriptMode (env0 false) ["SCRIPT", "a", "SCRIPT"] []).generators
      = [InstallGenerator.script "/src/a"] ∧
    (HandleScriptMode (env0 false) ["SCRIPT", "a", "SCRIPT"] []).generators ≠ [] := by
  decide

/-- C1 (amended): when script mode fails, the registry after the call is the registry
before the call followed by one ScriptRule for each `SCRIPT` pair that precedes the
failing token: all pairs of the directive for MissingValue, the pairs before the
offending pair for NotAFile. -/
theorem C1_script_failure_registers_earlier_pairs (env : Env) (rest : List String)
    (gens : List InstallGenerator)
    (hfail : (HandleScriptMode env ("SCRIPT" :: rest) gens).error ≠ none) :
    ((HandleScriptMode env ("SCRIPT" :: rest) gens).error = some InstallError.scriptNoValue ∧
      ("SCRIPT" :: rest).getLast? = some "SCRIPT" ∧
      (HandleScriptMode env ("SCRIPT" :: rest) gens).generators
        = gens ++ scriptRules env ("SCRIPT" :: rest)) ∨
    ((HandleScriptMode env ("SCRIPT" :: rest) gens).error
        = some InstallError.scriptDirectory ∧
      ∃ pre a post, "SCRIPT" :: rest = pre ++ "SCRIPT" :: a :: post ∧ a ≠ "SCRIPT" ∧
        env.FileIsDirectory (resolvedPath env a) = true ∧
        (HandleScriptMode env ("SCRIPT" :: rest) gens).generators
          = gens ++ scriptRules env (pre ++ ["SCRIPT"])) := by
  have hrun : HandleScriptMode env ("SCRIPT" :: rest) gens
      = HandleScriptMode.loop env rest (decide (("SCRIPT" : String) = "SCRIPT")) gens := by
    simp [HandleScriptMode, HandleScriptMode.loop]
  rw [hrun] at hfail ⊢
  rcases HandleScriptMode_loop_spec env rest "SCRIPT" gens with h | h | h
  · exact absurd h.1 hfail
  · exact Or.inl h
  · exact Or.inr h

/-- C1 (witness): the amended statement at `SCRIPT a SCRIPT`. -/
theorem C1_script_failure_registers_earlier_pairs_witness :
    (HandleScriptMode (env0 false) ("SCRIPT" :: ["a", "SCRIPT"]) []).error ≠ none ∧
    (((HandleScriptMode (env0 false) ("SCRIPT" :: ["a", "SCRIPT"]) []).error
        = some InstallError.scriptNoValue ∧
      ("SCRIPT" :: ["a", "SCRIPT"]).getLast? = some "SCRIPT" ∧
      (HandleScriptMode (env0 false) ("SCRIPT" :: ["a", "SCRIPT"]) []).generators
        = [] ++ scriptRules (env0 false) ("SCRIPT" :: ["a", "SCRIPT"])) ∨
    ((HandleScriptMode (env0 false) ("SCRIPT" :: ["a", "SCRIPT"]) []).error
        = some InstallError.scriptDirectory ∧
      ∃ pre a post, "SCRIPT" :: ["a", "SCRIPT"] = pre ++ "SCRIPT" :: a :: post ∧
        a ≠ "SCRIPT" ∧
        (env0 false).FileIsDirectory (resolvedPath (env0 false) a) = true ∧
        (HandleScriptMode (env0 false) ("SCRIPT" :: ["a", "SCRIPT"]) []).generators
          = [] ++ scriptRules (env0 false) (pre ++ ["SCRIPT"]))) :=
  ⟨by decide,
    C1_script_failure_registers_earlier_pairs (env0 false) ["a", "SCRIPT"] [] (by decide)⟩

/-! ## Targets mode: the argument loop and the end-of-parse checks -/

/-- The errors one iteration of the targets loop can raise. -/
theorem targets_step_error (env : Env) (st : TargetsState) (a : String) (e : InstallError)
    (h : HandleTargetsMode.step env st a = .error e) :
    e = InstallError.invalidTargetType a ∨ e = InstallError.unknownTarget a ∨
      e = InstallError.targetsUnknownArgument a := by
  unfold HandleTargetsMode.step at h
  split_ifs at h
  · split at h
    · split_ifs at h
      injection h with h; exact Or.inl h.symm
    · injection h with h; exact Or.inr (Or.inl h.symm)
  · injection h with h; exact Or.inr (Or.inr h.symm)

/-- The errors the targets loop can raise. -/
theorem targets_parse_error (env : Env) (l : List String) :
    ∀ (st : TargetsState) (e : InstallError), HandleTargetsMode.parse env l st = .error e →
      ∃ a ∈ l, e = InstallError.invalidTargetType a ∨ e = InstallError.unknownTarget a ∨
        e = InstallError.targetsUnknownArgument a := by
  induction l with
  | nil => intro st e h; simp [HandleTargetsMode.parse] at h
  | cons a rest ih =>
      intro st e h
      rw [HandleTargetsMode.parse] at h
      cases hs : HandleTargetsMode.step env st a with
      | error e1 =>
          rw [hs] at h
          injection h with h
          subst h
          exact ⟨a, List.mem_cons_self _ _, targets_step_error env st a e1 hs⟩
      | ok st1 =>
          rw [hs] at h
          obtain ⟨b, hb, hbe⟩ := ih st1 e h
          exact ⟨b, List.mem_cons_of_mem _ hb, hbe⟩

/-- The member `HandleTargetsMode` when the argument loop fails. -/
theorem HandleTargetsMode_parse_error (env : Env) (arg0 : String) (tail : List String)
    (gens : List InstallGenerator) (e : InstallError)
    (h : HandleTargetsMode.parse env tail TargetsState.init = .error e) :
    HandleTargetsMode env (arg0 :: tail) gens = ⟨some e, gens⟩ := by
  simp [HandleTargetsMode, h]

/-- The member `HandleTargetsMode` when the argument loop completes. -/
theorem HandleTargetsMode_parse_ok (env : Env) (arg0 : String) (tail : List String)
    (gens : List InstallGenerator) (st : TargetsState)
    (h : HandleTargetsMode.parse env tail TargetsState.init = .ok st) :
    HandleTargetsMode env (arg0 :: tail) gens
      = if st.targets = [] then ⟨none, gens⟩
        else if st.library_destination = none ∧ st.runtime_destination = none then
          ⟨some InstallError.targetsNoDestination, gens⟩
        else
          HandleTargetsMode.generate env st.library_destination st.runtime_destination
            (ComputeDestination env st.library_destination)
            (ComputeDestination env st.runtime_destination) st.targets gens := by
  simp [HandleTargetsMode, h]

/-! ## C2: targets mode on failure -/

/-- C2 (counterexample): `TARGETS mystatic myexe LIBRARY DESTINATION lib` fails with
MissingRuntimeDestination for the second target, after the TargetRule of the first
target has been registered: the registry is not the (empty) registry before the call. -/
theorem C2_targets_failure_keeps_earlier_rule :
    (HandleTargetsMode (env0 false)
        ["TARGETS", "mystatic", "myexe", "LIBRARY", "DESTINATION", "lib"] []).error
      = some (InstallError.noRuntimeDestination "myexe") ∧
    (HandleTargetsMode (env0 false)
        ["TARGETS", "mystatic", "myexe", "LIBRARY", "DESTINATION", "lib"] []).generators
      = [InstallGenerator.target ⟨"mystatic", .STATIC_LIBRARY⟩
          "$\x7bCMAKE_INSTALL_PREFIX\x7d/lib" false] ∧
    (HandleTargetsMode (env0 false)
        ["TARGETS", "mystatic", "myexe", "LIBRARY", "DESTINATION", "lib"] []).generators
      ≠ [] := by
  decide

/-- C2 (amended): when targets mode fails with an error of the argument loop or of the
end-of-parse checks (UnknownTarget, InvalidTargetType, UnknownArgument,
MissingDestination) the registry is unchanged; when it fails during rule generation
(MissingRuntimeDestination or MissingLibraryDestination for some target) the registry
is the one before the call followed by the TargetRules of the targets that precede
the failing target in the list. -/
theorem C2_targets_failure_registry (env : Env) (tail : List String)
    (gens : List InstallGenerator) (e : InstallError)
    (hfail : (HandleTargetsMode env ("TARGETS" :: tail) gens).error = some e) :
    ((∀ b n, e ≠ InstallError.noLibraryDestination b n) ∧
      (∀ n, e ≠ InstallError.noRuntimeDestination n) ∧
      (HandleTargetsMode env ("TARGETS" :: tail) gens).generators = gens) ∨
    (∃ st done t rest,
      HandleTargetsMode.parse env tail TargetsState.init = .ok st ∧
      st.targets = done ++ t :: rest ∧
      (∀ d ∈ done, targetError st.library_destination st.runtime_destination d = none) ∧
      targetError st.library_destination st.runtime_destination t = some e ∧
      (e = InstallError.noRuntimeDestination t.GetName ∨
        ∃ b, e = InstallError.noLibraryDestination b t.GetName) ∧
      (HandleTargetsMode env ("TARGETS" :: tail) gens).generators
        = gens ++ done.flatMap (targetRules env.dllPlatform st.library_destination
            st.runtime_destination (ComputeDestination env st.library_destination)
            (ComputeDestination env st.runtime_destination))) := by
  cases hp : HandleTargetsMode.parse env tail TargetsState.init with
  | error e1 =>
      rw [HandleTargetsMode_parse_error env "TARGETS" tail gens e1 hp] at hfail ⊢
      injection hfail with hfail
      subst hfail
      left
      obtain ⟨a, _, ha⟩ := targets_parse_error env tail _ _ hp
      rcases ha with rfl | rfl | rfl <;> simp
  | ok st =>
      rw [HandleTargetsMode_parse_ok env "TARGETS" tail gens st hp] at hfail ⊢
      by_cases hempty : st.targets = []
      · simp [hempty] at hfail
      · rw [if_neg hempty] at hfail ⊢
        by_cases hdest : st.library_destination = none ∧ st.runtime_destination = none
        · rw [if_pos hdest] at hfail ⊢
          left
          injection hfail with hfail
          subst hfail
          simp
        · rw [if_neg hdest] at hfail ⊢
          rcases targets_split_first_error st.library_destination st.runtime_destination
            st.targets with hall | ⟨done, t, rest, e1, hsplit, hdone, ht⟩
          · rw [generate_all_ok env _ _ _ _ st.targets gens hall] at hfail
            simp at hfail
          · right
            rw [hsplit, generate_first_error env _ _ _ _ done t rest e1 gens hdone ht]
              at hfail ⊢
            injection hfail with hfail
            subst hfail
            refine ⟨st, done, t, rest, rfl, hsplit, hdone, ht, ?_, rfl⟩
            exact targetError_some_kind _ _ t _ ht

/-- C2 (witness): the amended statement at `TARGETS mystatic myexe LIBRARY DESTINATION lib`. -/
theorem C2_targets_failure_registry_witness :
    (HandleTargetsMode (env0 false)
        ("TARGETS" :: ["mystatic", "myexe", "LIBRARY", "DESTINATION", "lib"]) []).error
      = some (InstallError.noRuntimeDestination "myexe") ∧
    (((∀ b n, InstallError.noRuntimeDestination "myexe"
          ≠ InstallError.noLibraryDestination b n) ∧
      (∀ n, InstallError.noRuntimeDestination "myexe" ≠ InstallError.noRuntimeDestination n) ∧
      (HandleTargetsMode (env0 false)
        ("TARGETS" :: ["mystatic", "myexe", "LIBRARY", "DESTINATION", "lib"]) []).generators
        = []) ∨
    (∃ st done t rest,
      HandleTargetsMode.parse (env0 false) ["mystatic", "myexe", "LIBRARY", "DESTINATION", "lib"]
        TargetsState.init = .ok st ∧
      st.targets = done ++ t :: rest ∧
      (∀ d ∈ done, targetError st.library_destination st.runtime_destination d = none) ∧
      targetError st.library_destination st.runtime_destination t
        = some (InstallError.noRuntimeDestination "myexe") ∧
      (InstallError.noRuntimeDestination "myexe" = InstallError.noRuntimeDestination t.GetName ∨
        ∃ b, InstallError.noRuntimeDestination "myexe"
          = InstallError.noLibraryDestination b t.GetName) ∧
      (HandleTargetsMode (env0 false)
        ("TARGETS" :: ["mystatic", "myexe", "LIBRARY", "DESTINATION", "lib"]) []).generators
        = [] ++ done.flatMap (targetRules (env0 false).dllPlatform st.library_destination
            st.runtime_destination (ComputeDestination (env0 false) st.library_destination)
            (ComputeDestination (env0 false) st.runtime_destination)))) :=
  ⟨by decide,
    C2_targets_failure_registry (env0 false)
      ["mystatic", "myexe", "LIBRARY", "DESTINATION", "lib"] []
      (InstallError.noRuntimeDestination "myexe") (by decide)⟩

/-! ## Files mode: the argument loop against the keyword grammar -/

theorem CheckPermissions_loop_eq (arg permissions : String) (table : List String) :
    CheckPermissions.loop arg permissions table
      = if arg ∈ table then (true, permissions ++ " " ++ arg) else (false, permissions) := by
  induction table with
  | nil => simp [CheckPermissions.loop]
  | cons v rest ih =>
      by_cases h : arg = v
      · simp [CheckPermissions.loop, h]
      · simp [CheckPermissions.loop, h, ih]

theorem CheckPermissions_eq (arg permissions : String) :
    CheckPermissions arg permissions
      = if arg ∈ permissionTable then (true, permissions ++ " " ++ arg)
        else (false, permissions) :=
  CheckPermissions_loop_eq arg permissions permissionTable

theorem tokenRun_cons_keyword (kw : String → Bool) (a : String) (l : List String)
    (h : kw a = true) : tokenRun kw (a :: l) = [] := by
  simp [tokenRun, List.takeWhile, h]

theorem tokenRun_cons_other (kw : String → Bool) (a : String) (l : List String)
    (h : kw a = false) : tokenRun kw (a :: l) = a :: tokenRun kw l := by
  simp [tokenRun, List.takeWhile, h]

theorem isFilesKeyword_false (a : String) (h1 : a ≠ "DESTINATION") (h2 : a ≠ "PERMISSIONS")
    (h3 : a ≠ "RENAME") : isFilesKeyword a = false := by
  simp [isFilesKeyword, h1, h2, h3]

theorem keywordValues_cons_other (kw : String → Bool) (k a : String) (l : List String)
    (h : a ≠ k) : keywordValues kw k (a :: l) = keywordValues kw k l := by
  simp [keywordValues, h]

theorem keywordRuns_cons_other (kw : String → Bool) (k a : String) (l : List String)
    (h : a ≠ k) : keywordRuns kw k (a :: l) = keywordRuns kw k l := by
  simp [keywordRuns, h]

theorem keywordValues_cons_self (kw : String → Bool) (k : String) (l : List String) :
    keywordValues kw k (k :: l) = (tokenRun kw l).head?.toList ++ keywordValues kw k l := by
  simp [keywordValues]

theorem keywordRuns_cons_self (kw : String → Bool) (k : String) (l : List String) :
    keywordRuns kw k (k :: l) = tokenRun kw l ++ keywordRuns kw k l := by
  simp [keywordRuns]

theorem joinPermissions_cons (p : String) (l : List String) :
    joinPermissions (p :: l) = " " ++ p ++ joinPermissions l := rfl

/-- The argument loop of files mode, started in any sub-state, against the keyword
grammar of the tokens still to read. -/
theorem files_parse_spec (env : Env) (arg0 : String) (l : List String) :
    ∀ (st st1 : FilesState), st.Exclusive → HandleFilesMode.parse env arg0 l st = .ok st1 →
      st1.files = st.files ++
        (if st.doing_files then (tokenRun isFilesKeyword l).map (resolvedPath env) else []) ∧
      st1.destination = (st.destination.toList ++
        (((if st.doing_destination then (tokenRun isFilesKeyword l).head?.toList else [])
          ++ keywordValues isFilesKeyword "DESTINATION" l).map c_str)).getLast? ∧
      st1.permissions = st.permissions ++ joinPermissions
        ((if st.doing_permissions then tokenRun isFilesKeyword l else [])
          ++ keywordRuns isFilesKeyword "PERMISSIONS" l) ∧
      st1.rename = (((if st.doing_rename then (tokenRun isFilesKeyword l).head?.toList else [])
          ++ keywordValues isFilesKeyword "RENAME" l).getLast?).getD st.rename := by
  induction l with
  | nil =>
      intro st st1 _ h
      simp only [HandleFilesMode.parse, Except.ok.injEq] at h
      subst h
      refine ⟨?_, ?_, ?_, ?_⟩
      · simp [tokenRun]
      · cases st.destination <;> simp [tokenRun, keywordValues, Option.toList]
      · simp [tokenRun, keywordRuns, joinPermissions]
      · simp [tokenRun, keywordValues]
  | cons a rest ih =>
      intro st st1 hx h
      rw [HandleFilesMode.parse] at h
      by_cases hd : a = "DESTINATION"
      · subst hd
        have hkw : isFilesKeyword "DESTINATION" = true := by decide
        have hs : HandleFilesMode.step env arg0 st "DESTINATION"
            = .ok { st with doing_files := false, doing_destination := true,
                            doing_permissions := false, doing_rename := false } := by
          simp [HandleFilesMode.step]
        rw [hs] at h
        obtain ⟨h1, h2, h3, h4⟩ := ih _ st1 (by simp [FilesState.Exclusive]) h
        refine ⟨?_, ?_, ?_, ?_⟩
        · simpa [tokenRun_cons_keyword _ _ _ hkw] using h1
        · simpa [tokenRun_cons_keyword _ _ _ hkw, keywordValues_cons_self] using h2
        · simpa [tokenRun_cons_keyword _ _ _ hkw, keywordRuns_cons_other] using h3
        · simpa [tokenRun_cons_keyword _ _ _ hkw, keywordValues_cons_other] using h4
      · by_cases hp : a = "PERMISSIONS"
        · subst hp
          have hkw : isFilesKeyword "PERMISSIONS" = true := by decide
          have hs : HandleFilesMode.step env arg0 st "PERMISSIONS"
              = .ok { st with doing_files := false, doing_destination := false,
                              doing_permissions := true, doing_rename := false } := by
            simp [HandleFilesMode.step]
          rw [hs] at h
          obtain ⟨h1, h2, h3, h4⟩ := ih _ st1 (by simp [FilesState.Exclusive]) h
          refine ⟨?_, ?_, ?_, ?_⟩
          · simpa [tokenRun_cons_keyword _ _ _ hkw] using h1
          · simpa [tokenRun_cons_keyword _ _ _ hkw, keywordValues_cons_other] using h2
          · simpa [tokenRun_cons_keyword _ _ _ hkw, keywordRuns_cons_self] using h3
          · simpa [tokenRun_cons_keyword _ _ _ hkw, keywordValues_cons_other] using h4
        · by_cases hr : a = "RENAME"
          · subst hr
            have hkw : isFilesKeyword "RENAME" = true := by decide
            have hs : HandleFilesMode.step env arg0 st "RENAME"
                = .ok { st with doing_files := false, doing_destination := false,
                                doing_permissions := false, doing_rename := true } := by
              simp [HandleFilesMode.step]
            rw [hs] at h
            obtain ⟨h1, h2, h3, h4⟩ := ih _ st1 (by simp [FilesState.Exclusive]) h
            refine ⟨?_, ?_, ?_, ?_⟩
            · simpa [tokenRun_cons_keyword _ _ _ hkw] using h1
            · simpa [tokenRun_cons_keyword _ _ _ hkw, keywordValues_cons_other] using h2
            · simpa [tokenRun_cons_keyword _ _ _ hkw, keywordRuns_cons_other] using h3
            · simpa [tokenRun_cons_keyword _ _ _ hkw, keywordValues_cons_self] using h4
          · have hkw : isFilesKeyword a = false := isFilesKeyword_false a hd hp hr
            have hrun := tokenRun_cons_other isFilesKeyword a rest hkw
            have hvd := keywordValues_cons_other isFilesKeyword "DESTINATION" a rest hd
            have hvr := keywordValues_cons_other isFilesKeyword "RENAME" a rest hr
            have hrp := keywordRuns_cons_other isFilesKeyword "PERMISSIONS" a rest hp
            rw [hrun, hvd, hvr, hrp]
            obtain ⟨f, d, p, r, files, dest, ren, perms⟩ := st
            rcases hx with ⟨hf, hdd, hpp, hrr⟩ | ⟨hf, hdd, hpp, hrr⟩ | ⟨hf, hdd, hpp, hrr⟩ |
              ⟨hf, hdd, hpp, hrr⟩ | ⟨hf, hdd, hpp, hrr⟩ <;>
              simp only at hf hdd hpp hrr <;> subst hf hdd hpp hrr
            · -- collecting files
              by_cases hdir : env.FileIsDirectory (resolvedPath env a) = true
              · simp [HandleFilesMode.step, hd, hp, hr, resolvedPath_eq_false, hdir] at h
              · simp only [HandleFilesMode.step, hd, hp, hr, if_false, if_true,
                  resolvedPath_eq, hdir] at h
                obtain ⟨h1, h2, h3, h4⟩ := ih _ st1 (by simp [FilesState.Exclusive]) h
                refine ⟨?_, ?_, ?_, ?_⟩
                · simpa using h1
                · simpa using h2
                · simpa using h3
                · simpa using h4
            · -- awaiting the destination value
              simp only [HandleFilesMode.step, hd, hp, hr, if_false, if_true] at h
              obtain ⟨h1, h2, h3, h4⟩ := ih _ st1 (by simp [FilesState.Exclusive]) h
              refine ⟨?_, ?_, ?_, ?_⟩
              · simpa using h1
              · rw [h2]
                cases dest <;> simp [Option.toList, List.getLast?_cons_cons]
              · simpa using h3
              · simpa using h4
            · -- collecting permissions
              by_cases hmem : a ∈ permissionTable
              · simp only [HandleFilesMode.step, hd, hp, hr, if_false, if_true,
                  CheckPermissions_eq, hmem, Bool.not_true, Bool.false_eq_true] at h
                obtain ⟨h1, h2, h3, h4⟩ := ih _ st1 (by simp [FilesState.Exclusive]) h
                refine ⟨?_, ?_, ?_, ?_⟩
                · simpa using h1
                · simpa using h2
                · rw [h3]
                  simp [joinPermissions_cons, String.append_assoc]
                · simpa using h4
              · simp [HandleFilesMode.step, hd, hp, hr, CheckPermissions_eq, hmem] at h
            · -- awaiting the rename value
              simp only [HandleFilesMode.step, hd, hp, hr, if_false, if_true] at h
              obtain ⟨h1, h2, h3, h4⟩ := ih _ st1 (by simp [FilesState.Exclusive]) h
              refine ⟨?_, ?_, ?_, ?_⟩
              · simpa using h1
              · simpa using h2
              · simpa using h3
              · rw [h4]
                simp only [Bool.false_eq_true, if_false, if_true, List.nil_append,
                  List.head?_cons, Option.toList, List.singleton_append]
                cases hk : keywordValues isFilesKeyword "RENAME" rest with
                | nil => simp
                | cons x xs =>
                    simp [List.getLast?_cons_cons,
                      List.getLast?_eq_getLast (x :: xs) (List.cons_ne_nil x xs)]
            · -- neutral sub-state
              simp [HandleFilesMode.step, hd, hp, hr] at h

/-- A value of keyword `k` stands right after an occurrence of `k` and is not a keyword. -/
theorem keywordValues_adjacent (kw : String → Bool) (k d : String) (l : List String) :
    d ∈ keywordValues kw k l → ∃ pre post, l = pre ++ k :: d :: post ∧ kw d = false := by
  induction l with
  | nil => intro h; simp [keywordValues] at h
  | cons a rest ih =>
      intro h
      simp only [keywordValues, List.mem_append] at h
      rcases h with h | h
      · by_cases hak : a = k
        · subst hak
          cases rest with
          | nil => simp [tokenRun] at h
          | cons b rest1 =>
              cases hb : kw b with
              | true => simp [tokenRun_cons_keyword kw b rest1 hb] at h
              | false =>
                  simp only [if_true, tokenRun_cons_other kw b rest1 hb, List.head?_cons,
                    Option.toList, List.mem_singleton] at h
                  subst h
                  exact ⟨[], rest1, rfl, hb⟩
        · simp [hak] at h
      · obtain ⟨pre, post, hsplit, hd⟩ := ih h
        exact ⟨a :: pre, post, by simp [hsplit], hd⟩

/-- The final state of the files loop run from the initial state, in the terms of the
keyword grammar. -/
theorem files_parse_init (env : Env) (arg0 : String) (tail : List String) (st : FilesState)
    (h : HandleFilesMode.parse env arg0 tail FilesState.init = .ok st) :
    st.files = (tokenRun isFilesKeyword tail).map (resolvedPath env) ∧
    st.destination = ((keywordValues isFilesKeyword "DESTINATION" tail).getLast?).map c_str ∧
    st.permissions = joinPermissions (keywordRuns isFilesKeyword "PERMISSIONS" tail) ∧
    st.rename = ((keywordValues isFilesKeyword "RENAME" tail).getLast?).getD "" := by
  obtain ⟨h1, h2, h3, h4⟩ := files_parse_spec env arg0 tail FilesState.init st
    (by simp [FilesState.Exclusive, FilesState.init]) h
  refine ⟨?_, ?_, ?_, ?_⟩
  · simpa [FilesState.init] using h1
  · simpa [FilesState.init, Option.toList] using h2
  · simpa [FilesState.init] using h3
  · simpa [FilesState.init] using h4

/-- The member `HandleFilesMode` when the argument loop fails. -/
theorem HandleFilesMode_parse_error (env : Env) (arg0 : String) (tail : List String)
    (gens : List InstallGenerator) (e : InstallError)
    (h : HandleFilesMode.parse env arg0 tail FilesState.init = .error e) :
    HandleFilesMode env (arg0 :: tail) gens = ⟨some e, gens⟩ := by
  simp [HandleFilesMode, h]

/-- The member `HandleFilesMode` when the argument loop completes. -/
theorem HandleFilesMode_parse_ok (env : Env) (arg0 : String) (tail : List String)
    (gens : List InstallGenerator) (st : FilesState)
    (h : HandleFilesMode.parse env arg0 tail FilesState.init = .ok st) :
    HandleFilesMode env (arg0 :: tail) gens
      = if st.files = [] then ⟨none, gens⟩
        else if st.destination = none then ⟨some (InstallError.filesNoDestination arg0), gens⟩
        else if st.rename ≠ "" ∧ st.files.length > 1 then
          ⟨some (InstallError.renameMultipleFiles arg0), gens⟩
        else
          ⟨none, gens ++ [InstallGenerator.files st.files
            (ComputeDestination env st.destination) (decide (arg0 = "PROGRAMS"))
            st.permissions st.rename]⟩ := by
  simp [HandleFilesMode, h]

/-- Where a destination of targets mode comes from: it was set before, or it is the
token read next while a value is awaited, or it follows a later `DESTINATION`; in the
last two cases it is that token read as a C string. -/
theorem targets_parse_destination (env : Env) (l : List String) :
    ∀ (st st1 : TargetsState), HandleTargetsMode.parse env l st = .ok st1 →
      ∀ d, (st1.library_destination = some d ∨ st1.runtime_destination = some d) →
        (st.library_destination = some d ∨ st.runtime_destination = some d) ∨
        (st.doing_targets = false ∧ st.doing_destination = true ∧
          ∃ tok post, l = tok :: post ∧ isTargetsKeyword tok = false ∧ d = c_str tok) ∨
        (∃ tok pre post, l = pre ++ "DESTINATION" :: tok :: post ∧
          isTargetsKeyword tok = false ∧ d = c_str tok) := by
  induction l with
  | nil =>
      intro st st1 h d hd
      simp only [HandleTargetsMode.parse, Except.ok.injEq] at h
      subst h
      exact Or.inl hd
  | cons a rest ih =>
      intro st st1 h d hd
      rw [HandleTargetsMode.parse] at h
      cases hs : HandleTargetsMode.step env st a with
      | error e => rw [hs] at h; simp at h
      | ok st2 =>
          rw [hs] at h
          have hih := ih st2 st1 h d hd
          have hprepend : (∃ tok pre post, rest = pre ++ "DESTINATION" :: tok :: post ∧
              isTargetsKeyword tok = false ∧ d = c_str tok) →
              ∃ tok pre post, a :: rest = pre ++ "DESTINATION" :: tok :: post ∧
                isTargetsKeyword tok = false ∧ d = c_str tok := by
            rintro ⟨tok, pre, post, hsplit, hk, hdt⟩
            exact ⟨tok, a :: pre, post, by simp [hsplit], hk, hdt⟩
          obtain ⟨dt, dd, ls, rs, ts, ld, rd⟩ := st
          unfold HandleTargetsMode.step at hs
          by_cases h1 : a = "DESTINATION"
          · subst h1
            simp only [if_true, Except.ok.injEq] at hs
            subst hs
            rcases hih with hih | ⟨_, _, tok, post, hpost, hk, hdt⟩ | hih
            · exact Or.inl hih
            · exact Or.inr (Or.inr ⟨tok, [], post, by simp [hpost], hk, hdt⟩)
            · exact Or.inr (Or.inr (hprepend hih))
          · by_cases h2 : a = "LIBRARY"
            · subst h2
              simp only [h1, if_false, if_true, Except.ok.injEq] at hs
              subst hs
              rcases hih with hih | ⟨_, hdd, _⟩ | hih
              · exact Or.inl hih
              · simp at hdd
              · exact Or.inr (Or.inr (hprepend hih))
            · by_cases h3 : a = "RUNTIME"
              · subst h3
                simp only [h1, h2, if_false, if_true, Except.ok.injEq] at hs
                subst hs
                rcases hih with hih | ⟨_, hdd, _⟩ | hih
                · exact Or.inl hih
                · simp at hdd
                · exact Or.inr (Or.inr (hprepend hih))
              · have hkw : isTargetsKeyword a = false := by
                  simp [isTargetsKeyword, h1, h2, h3]
                simp only [h1, h2, h3, if_false] at hs
                cases dt with
                | true =>
                    simp only [if_true] at hs
                    split at hs
                    · split_ifs at hs
                      simp only [Except.ok.injEq] at hs
                      subst hs
                      rcases hih with hih | ⟨hdt, _, _⟩ | hih
                      · exact Or.inl hih
                      · simp at hdt
                      · exact Or.inr (Or.inr (hprepend hih))
                    · simp at hs
                | false =>
                    cases dd with
                    | true =>
                        have hnow : (false = false ∧ true = true ∧
                            ∃ tok post, a :: rest = tok :: post ∧
                              isTargetsKeyword tok = false ∧ c_str a = c_str tok) :=
                          ⟨rfl, rfl, a, rest, rfl, hkw, rfl⟩
                        simp only [Bool.false_eq_true, if_false, if_true, Except.ok.injEq] at hs
                        subst hs
                        rcases hih with hih | ⟨_, hdd, _⟩ | hih
                        · cases ls <;> cases rs <;>
                            simp only [Bool.false_eq_true, if_false, if_true,
                              Option.some.injEq] at hih
                          · exact Or.inl hih
                          · rcases hih with hih | hih
                            · exact Or.inl (Or.inl hih)
                            · subst hih
                              exact Or.inr (Or.inl hnow)
                          · rcases hih with hih | hih
                            · subst hih
                              exact Or.inr (Or.inl hnow)
                            · exact Or.inl (Or.inr hih)
                          · rcases hih with hih | hih
                            · subst hih
                              exact Or.inr (Or.inl hnow)
                            · subst hih
                              exact Or.inr (Or.inl hnow)
                        · simp at hdd
                        · exact Or.inr (Or.inr (hprepend hih))
                    | false => simp at hs

/-! ## C3: a registered rule and the grammar of its directive -/

/-- C3 (counterexample): `FILES a.txt DESTINATION lib RENAME` registers a FilesRule
although the directive ends in a `RENAME` keyword whose value is missing (the loop
ends with `doing_rename` set), and `TARGETS myexe DESTINATION bin DESTINATION`
registers a TargetRule although it ends in a `DESTINATION` keyword whose value is
missing (the loop ends with `doing_destination` set). -/
theorem C3_rule_registered_with_dangling_keyword :
    InitialPass (env0 false) ["FILES", "a.txt", "DESTINATION", "lib", "RENAME"] []
      = ⟨none, [InstallGenerator.files ["/src/a.txt"] "$\x7bCMAKE_INSTALL_PREFIX\x7d/lib"
          false "" ""]⟩ ∧
    (["FILES", "a.txt", "DESTINATION", "lib", "RENAME"] : List String).getLast?
      = some "RENAME" ∧
    (match HandleFilesMode.parse (env0 false) "FILES" ["a.txt", "DESTINATION", "lib", "RENAME"]
        FilesState.init with
      | .ok st => st.doing_rename
      | .error _ => false) = true ∧
    InitialPass (env0 false) ["TARGETS", "myexe", "DESTINATION", "bin", "DESTINATION"] []
      = ⟨none, [InstallGenerator.target ⟨"myexe", .EXECUTABLE⟩
          "$\x7bCMAKE_INSTALL_PREFIX\x7d/bin" false]⟩ ∧
    (["TARGETS", "myexe", "DESTINATION", "bin", "DESTINATION"] : List String).getLast?
      = some "DESTINATION" ∧
    (match HandleTargetsMode.parse (env0 false) ["myexe", "DESTINATION", "bin", "DESTINATION"]
        TargetsState.init with
      | .ok st => st.doing_destination
      | .error _ => false) = true := by
  decide

/-- C3 (amended): if a Files/Programs directive or a Targets directive registers at
least one rule, then its argument loop completed with a destination supplied: some
`DESTINATION` keyword of the directive is immediately followed by a token that is not
a keyword of the mode, and that token, as the C string `c_str()` gives, is the
destination of files mode, respectively the library or the runtime destination of
targets mode. -/
theorem C3_registered_rule_has_destination (env : Env) (arg0 : String) (tail : List String)
    (gens : List InstallGenerator) :
    ((HandleFilesMode env (arg0 :: tail) gens).generators ≠ gens →
      ∃ st d pre post, HandleFilesMode.parse env arg0 tail FilesState.init = .ok st ∧
        st.destination = some (c_str d) ∧ tail = pre ++ "DESTINATION" :: d :: post ∧
        isFilesKeyword d = false) ∧
    ((HandleTargetsMode env (arg0 :: tail) gens).generators ≠ gens →
      ∃ st d pre post, HandleTargetsMode.parse env tail TargetsState.init = .ok st ∧
        (st.library_destination = some (c_str d) ∨ st.runtime_destination = some (c_str d)) ∧
        tail = pre ++ "DESTINATION" :: d :: post ∧ isTargetsKeyword d = false) := by
  constructor
  · intro hreg
    cases hp : HandleFilesMode.parse env arg0 tail FilesState.init with
    | error e =>
        rw [HandleFilesMode_parse_error env arg0 tail gens e hp] at hreg
        exact absurd rfl hreg
    | ok st =>
        rw [HandleFilesMode_parse_ok env arg0 tail gens st hp] at hreg
        cases hdest : st.destination with
        | none =>
            exfalso
            apply hreg
            by_cases hf : st.files = [] <;> simp [hf, hdest]
        | some d =>
            have h2 := (files_parse_init env arg0 tail st hp).2.1
            rw [hdest] at h2
            obtain ⟨tok, hlast, htok⟩ := Option.map_eq_some'.1 h2.symm
            have hd : tok ∈ keywordValues isFilesKeyword "DESTINATION" tail :=
              List.mem_of_getLast?_eq_some hlast
            obtain ⟨pre, post, hsplit, hk⟩ := keywordValues_adjacent _ _ _ _ hd
            exact ⟨st, tok, pre, post, rfl, by rw [hdest, htok], hsplit, hk⟩
  · intro hreg
    cases hp : HandleTargetsMode.parse env tail TargetsState.init with
    | error e =>
        rw [HandleTargetsMode_parse_error env arg0 tail gens e hp] at hreg
        exact absurd rfl hreg
    | ok st =>
        rw [HandleTargetsMode_parse_ok env arg0 tail gens st hp] at hreg
        have hsome : ∃ d, st.library_destination = some d ∨ st.runtime_destination = some d := by
          cases hl : st.library_destination with
          | some d => exact ⟨d, Or.inl rfl⟩
          | none =>
              cases hr : st.runtime_destination with
              | some d => exact ⟨d, Or.inr rfl⟩
              | none =>
                  exfalso
                  apply hreg
                  by_cases ht : st.targets = [] <;> simp [ht, hl, hr]
        obtain ⟨d, hd⟩ := hsome
        rcases targets_parse_destination env tail TargetsState.init st hp d hd with
          h | ⟨_, h, _⟩ | ⟨tok, pre, post, hsplit, hk, hdt⟩
        · simp [TargetsState.init] at h
        · simp [TargetsState.init] at h
        · subst hdt
          exact ⟨st, tok, pre, post, rfl, hd, hsplit, hk⟩

/-- C3 (witness): the amended statement at `FILES a.txt DESTINATION lib RENAME`. -/
theorem C3_registered_rule_has_destination_witness :
    (HandleFilesMode (env0 false) ("FILES" :: ["a.txt", "DESTINATION", "lib", "RENAME"])
        []).generators ≠ [] ∧
    ∃ st d pre post,
      HandleFilesMode.parse (env0 false) "FILES" ["a.txt", "DESTINATION", "lib", "RENAME"]
        FilesState.init = .ok st ∧
      st.destination = some (c_str d) ∧
      ["a.txt", "DESTINATION", "lib", "RENAME"] = pre ++ "DESTINATION" :: d :: post ∧
      isFilesKeyword d = false :=
  ⟨by decide,
    (C3_registered_rule_has_destination (env0 false) "FILES"
      ["a.txt", "DESTINATION", "lib", "RENAME"] []).1 (by decide)⟩

/-! ## C4: the rename invariant -/

/-- C4: every FilesRule that `HandleFilesMode` registers has an empty rename or exactly
one file; a directive whose argument loop completes with two or more files, a
destination and a non-empty rename value fails with RenameRequiresSingleFile and
registers nothing; so does `FILES a.txt b.txt DESTINATION lib RENAME x.txt` whenever
neither file is a directory. -/
theorem C4_rename_invariant (env : Env) (arg0 : String) (tail : List String)
    (gens : List InstallGenerator) :
    (∃ added, (HandleFilesMode env (arg0 :: tail) gens).generators = gens ++ added ∧
      added.length ≤ 1 ∧
      ∀ fs dest prog perms ren, InstallGenerator.files fs dest prog perms ren ∈ added →
        ren = "" ∨ fs.length = 1) ∧
    (∀ st, HandleFilesMode.parse env arg0 tail FilesState.init = .ok st →
      2 ≤ st.files.length → st.destination ≠ none → st.rename ≠ "" →
      HandleFilesMode env (arg0 :: tail) gens
        = ⟨some (InstallError.renameMultipleFiles arg0), gens⟩) ∧
    (env.FileIsDirectory (resolvedPath env "a.txt") = false →
      env.FileIsDirectory (resolvedPath env "b.txt") = false →
      InitialPass env ["FILES", "a.txt", "b.txt", "DESTINATION", "lib", "RENAME", "x.txt"] gens
        = ⟨some (InstallError.renameMultipleFiles "FILES"), gens⟩) := by
  have hsecond : ∀ (a0 : String) (tl : List String) (st : FilesState),
      HandleFilesMode.parse env a0 tl FilesState.init = .ok st →
      2 ≤ st.files.length → st.destination ≠ none → st.rename ≠ "" →
      HandleFilesMode env (a0 :: tl) gens
        = ⟨some (InstallError.renameMultipleFiles a0), gens⟩ := by
    intro a0 tl st hp hlen hdest hren
    rw [HandleFilesMode_parse_ok env a0 tl gens st hp]
    have hne : st.files ≠ [] := by
      intro h
      rw [h] at hlen
      simp at hlen
    have hgt : st.files.length > 1 := hlen
    simp [hne, hdest, hren, hgt]
  refine ⟨?_, hsecond arg0 tail, ?_⟩
  · cases hp : HandleFilesMode.parse env arg0 tail FilesState.init with
    | error e =>
        rw [HandleFilesMode_parse_error env arg0 tail gens e hp]
        exact ⟨[], by simp, by simp, by simp⟩
    | ok st =>
        rw [HandleFilesMode_parse_ok env arg0 tail gens st hp]
        by_cases hf : st.files = []
        · rw [if_pos hf]
          exact ⟨[], by simp, by simp, by simp⟩
        · rw [if_neg hf]
          by_cases hd : st.destination = none
          · rw [if_pos hd]
            exact ⟨[], by simp, by simp, by simp⟩
          · rw [if_neg hd]
            by_cases hr : st.rename ≠ "" ∧ st.files.length > 1
            · rw [if_pos hr]
              exact ⟨[], by simp, by simp, by simp⟩
            · rw [if_neg hr]
              refine ⟨_, rfl, by simp, ?_⟩
              intro fs dest prog perms ren hmem
              simp only [List.mem_singleton, InstallGenerator.files.injEq] at hmem
              obtain ⟨hfs, _, _, _, hren⟩ := hmem
              subst hfs hren
              by_cases hre : st.rename = ""
              · exact Or.inl hre
              · right
                have hle : ¬ st.files.length > 1 := fun h => hr ⟨hre, h⟩
                have hpos : 0 < st.files.length := List.length_pos.2 hf
                omega
  · intro ha hb
    have hp : HandleFilesMode.parse env "FILES"
        ["a.txt", "b.txt", "DESTINATION", "lib", "RENAME", "x.txt"] FilesState.init
        = .ok { doing_files := false, doing_destination := false, doing_permissions := false,
                doing_rename := false,
                files := [resolvedPath env "a.txt", resolvedPath env "b.txt"],
                destination := some (c_str "lib"), rename := "x.txt", permissions := "" } := by
      simp [HandleFilesMode.parse, HandleFilesMode.step, FilesState.init,
        resolvedPath_eq_false, ha, hb]
    have hrun := hsecond "FILES" _ _ hp (by simp) (by simp) (by simp)
    simpa [InitialPass] using hrun

/-- C4 (witness): the second part at `FILES a.txt b.txt DESTINATION lib RENAME x.txt`. -/
theorem C4_rename_invariant_witness :
    HandleFilesMode (env0 false)
        ("FILES" :: ["a.txt", "b.txt", "DESTINATION", "lib", "RENAME", "x.txt"]) []
      = ⟨some (InstallError.renameMultipleFiles "FILES"), []⟩ :=
  (C4_rename_invariant (env0 false) "FILES"
      ["a.txt", "b.txt", "DESTINATION", "lib", "RENAME", "x.txt"] []).2.1
    { doing_files := false, doing_destination := false, doing_permissions := false,
      doing_rename := false, files := ["/src/a.txt", "/src/b.txt"],
      destination := some "lib", rename := "x.txt", permissions := "" }
    (by rfl) (by decide) (by decide) (by decide)

/-! ## Targets mode: the collected targets -/

/-- One iteration of the targets loop keeps the collected targets installable. -/
theorem targets_step_installable (env : Env) (st st1 : TargetsState) (a : String)
    (h : HandleTargetsMode.step env st a = .ok st1)
    (hst : ∀ t ∈ st.targets, t.Installable) : ∀ t ∈ st1.targets, t.Installable := by
  unfold HandleTargetsMode.step at h
  by_cases hdt : st.doing_targets = true
  · split_ifs at h
    any_goals (simp only [Except.ok.injEq] at h; subst h; exact hst)
    split at h
    · rename_i target _
      split_ifs at h with hty
      injection h with h
      subst h
      intro t ht
      rcases List.mem_append.1 ht with ht | ht
      · exact hst t ht
      · rw [List.mem_singleton] at ht
        subst ht
        unfold cmTarget.Installable
        by_contra hcon
        apply hty
        simp only [not_or] at hcon
        exact hcon
    · simp at h
  · split_ifs at h
    all_goals (simp only [Except.ok.injEq] at h; subst h; exact hst)

/-- The targets loop keeps the collected targets installable. -/
theorem targets_parse_installable (env : Env) (l : List String) :
    ∀ (st st1 : TargetsState), HandleTargetsMode.parse env l st = .ok st1 →
      (∀ t ∈ st.targets, t.Installable) → ∀ t ∈ st1.targets, t.Installable := by
  induction l with
  | nil =>
      intro st st1 h hst
      simp only [HandleTargetsMode.parse, Except.ok.injEq] at h
      subst h
      exact hst
  | cons a rest ih =>
      intro st st1 h hst
      rw [HandleTargetsMode.parse] at h
      cases hs : HandleTargetsMode.step env st a with
      | error e => rw [hs] at h; simp at h
      | ok st2 =>
          rw [hs] at h
          exact ih st2 st1 h (targets_step_installable env st st2 a hs hst)

/-- Every rule of a target is a TargetRule of that target. -/
theorem targetRules_mem (dll : Bool) (ld rd : Option String) (l r : String) (t : cmTarget)
    (g : InstallGenerator) (h : g ∈ targetRules dll ld rd l r t) :
    ∃ d i, g = InstallGenerator.target t d i := by
  obtain ⟨name, ty⟩ := t
  cases ty <;> cases dll <;> cases hl : ld.isSome <;> cases hr : rd.isSome <;>
    simp [targetRules, hl, hr] at h <;>
    first
      | exact ⟨_, _, h⟩
      | (rcases h with h | h <;> exact ⟨_, _, h⟩)

/-- An installable target that raises no error yields a rule, unless it is a shared
library on a non-DLL platform with no library destination. -/
theorem targetRules_ne_nil (dll : Bool) (ld rd : Option String) (l r : String) (t : cmTarget)
    (hinst : t.Installable) (herr : targetError ld rd t = none)
    (hdest : ¬ (ld = none ∧ rd = none))
    (hcond : dll = true ∨ ld ≠ none ∨ t.GetType ≠ .SHARED_LIBRARY) :
    targetRules dll ld rd l r t ≠ [] := by
  obtain ⟨name, ty⟩ := t
  cases ty <;> cases dll <;> cases ld <;> cases rd <;>
    simp_all [targetRules, targetError, cmTarget.Installable]

/-! ## C5: a successful targets directive and the rules it registers -/

/-- C5 (counterexample): on a non-DLL platform `TARGETS mylib RUNTIME DESTINATION bin`,
with `mylib` a shared library, passes the global destination check, succeeds with a
non-empty target list and registers no rule. -/
theorem C5_success_without_rule :
    (match HandleTargetsMode.parse (env0 false) ["mylib", "RUNTIME", "DESTINATION", "bin"]
        TargetsState.init with
      | .ok st => st.targets
      | .error _ => []) = [⟨"mylib", .SHARED_LIBRARY⟩] ∧
    InitialPass (env0 false) ["TARGETS", "mylib", "RUNTIME", "DESTINATION", "bin"] []
      = ⟨none, []⟩ := by
  decide

/-- C5 (amended): a Targets directive that succeeds with a non-empty target list
registers at least one TargetRule, each for a target of the list, when the platform is
DLL-style, or the library destination was supplied, or some target is not a shared
library; on a non-DLL platform with no library destination and only shared libraries
it succeeds and registers nothing. -/
theorem C5_success_registers_rule (env : Env) (tail : List String)
    (gens : List InstallGenerator) (st : TargetsState)
    (hp : HandleTargetsMode.parse env tail TargetsState.init = .ok st)
    (hne : st.targets ≠ [])
    (hok : (HandleTargetsMode env ("TARGETS" :: tail) gens).error = none) :
    ((env.dllPlatform = true ∨ st.library_destination ≠ none ∨
        ∃ t ∈ st.targets, t.GetType ≠ .SHARED_LIBRARY) →
      ∃ added, (HandleTargetsMode env ("TARGETS" :: tail) gens).generators = gens ++ added ∧
        added ≠ [] ∧
        ∀ g ∈ added, ∃ t d i, t ∈ st.targets ∧ g = InstallGenerator.target t d i) ∧
    (env.dllPlatform = false → st.library_destination = none →
      (∀ t ∈ st.targets, t.GetType = .SHARED_LIBRARY) →
      (HandleTargetsMode env ("TARGETS" :: tail) gens).generators = gens) := by
  have hinst : ∀ t ∈ st.targets, t.Installable :=
    targets_parse_installable env tail TargetsState.init st hp
      (by simp [TargetsState.init])
  rw [HandleTargetsMode_parse_ok env "TARGETS" tail gens st hp, if_neg hne] at hok ⊢
  by_cases hdest : st.library_destination = none ∧ st.runtime_destination = none
  · rw [if_pos hdest] at hok
    simp at hok
  · rw [if_neg hdest] at hok ⊢
    have hall : ∀ t ∈ st.targets,
        targetError st.library_destination st.runtime_destination t = none := by
      rcases targets_split_first_error st.library_destination st.runtime_destination
        st.targets with hall | ⟨done, t, rest, e, hsplit, hdone, ht⟩
      · exact hall
      · rw [hsplit, generate_first_error env _ _ _ _ done t rest e gens hdone ht] at hok
        simp at hok
    rw [generate_all_ok env _ _ _ _ st.targets gens hall]
    constructor
    · intro hcond
      refine ⟨_, rfl, ?_, ?_⟩
      · have hex : ∃ t ∈ st.targets, env.dllPlatform = true ∨
            st.library_destination ≠ none ∨ t.GetType ≠ .SHARED_LIBRARY := by
          rcases hcond with h | h | ⟨t, ht, h⟩
          · obtain ⟨t, ht⟩ := List.exists_mem_of_ne_nil _ hne
            exact ⟨t, ht, Or.inl h⟩
          · obtain ⟨t, ht⟩ := List.exists_mem_of_ne_nil _ hne
            exact ⟨t, ht, Or.inr (Or.inl h)⟩
          · exact ⟨t, ht, Or.inr (Or.inr h)⟩
        obtain ⟨t, ht, hc⟩ := hex
        have hrule := targetRules_ne_nil env.dllPlatform st.library_destination
          st.runtime_destination (ComputeDestination env st.library_destination)
          (ComputeDestination env st.runtime_destination) t (hinst t ht) (hall t ht) hdest hc
        intro hnil
        apply hrule
        rw [List.flatMap_eq_nil_iff] at hnil
        exact hnil t ht
      · intro g hg
        rw [List.mem_flatMap] at hg
        obtain ⟨t, ht, hgt⟩ := hg
        obtain ⟨d, i, hgd⟩ := targetRules_mem _ _ _ _ _ t g hgt
        exact ⟨t, d, i, ht, hgd⟩
    · intro hdll hlib hshared
      have hnil : st.targets.flatMap (targetRules env.dllPlatform st.library_destination
          st.runtime_destination (ComputeDestination env st.library_destination)
          (ComputeDestination env st.runtime_destination)) = [] := by
        rw [List.flatMap_eq_nil_iff]
        intro t ht
        simp [targetRules, hshared t ht, hdll, hlib]
      simp [hnil]

/-- C5 (witness): the amended statement at `TARGETS mylib RUNTIME DESTINATION bin` on a
DLL-style platform. -/
theorem C5_success_registers_rule_witness :
    ∃ added, (HandleTargetsMode (env0 true)
        ("TARGETS" :: ["mylib", "RUNTIME", "DESTINATION", "bin"]) []).generators = [] ++ added ∧
      added ≠ [] ∧
      ∀ g ∈ added, ∃ t d i, t ∈ [(⟨"mylib", .SHARED_LIBRARY⟩ : cmTarget)] ∧
        g = InstallGenerator.target t d i :=
  (C5_success_registers_rule (env0 true) ["mylib", "RUNTIME", "DESTINATION", "bin"] []
    { doing_targets := false, doing_destination := false, library_settings := false,
      runtime_settings := true, targets := [⟨"mylib", .SHARED_LIBRARY⟩],
      library_destination := none, runtime_destination := some "bin" }
    (by rfl) (by decide) (by decide)).1 (Or.inl (by rfl))

/-! ## The dispatcher on the four mode tokens -/

theorem InitialPass_SCRIPT (env : Env) (tail : List String) (gens : List InstallGenerator) :
    InitialPass env ("SCRIPT" :: tail) gens = HandleScriptMode env ("SCRIPT" :: tail) gens := by
  simp [InitialPass]

theorem InitialPass_TARGETS (env : Env) (tail : List String) (gens : List InstallGenerator) :
    InitialPass env ("TARGETS" :: tail) gens = HandleTargetsMode env ("TARGETS" :: tail) gens := by
  simp [InitialPass]

theorem InitialPass_FILES (env : Env) (tail : List String) (gens : List InstallGenerator) :
    InitialPass env ("FILES" :: tail) gens = HandleFilesMode env ("FILES" :: tail) gens := by
  simp [InitialPass]

theorem InitialPass_PROGRAMS (env : Env) (tail : List String) (gens : List InstallGenerator) :
    InitialPass env ("PROGRAMS" :: tail) gens = HandleFilesMode env ("PROGRAMS" :: tail) gens := by
  simp [InitialPass]

/-! ## C6: rule generation for a shared library -/

theorem isTargetsKeyword_eq_false (a : String) (h : isTargetsKeyword a = false) :
    a ≠ "DESTINATION" ∧ a ≠ "LIBRARY" ∧ a ≠ "RUNTIME" := by
  simpa [isTargetsKeyword, and_assoc] using h

/-- A token without a NUL character is its own C string. -/
theorem c_str_of_no_nul (s : String) (h : ∀ c ∈ s.data, c ≠ Char.ofNat 0) : c_str s = s := by
  unfold c_str
  have htake : s.data.takeWhile (fun c => c != Char.ofNat 0) = s.data := by
    rw [List.takeWhile_eq_self_iff]
    intro c hc
    simpa using h c hc
  rw [htake]

/-- C6 (counterexample): with the destination token `L = "RUNTIME"` the directive
`TARGETS mylib LIBRARY DESTINATION RUNTIME RUNTIME DESTINATION bin` reads `L` as a
keyword and sets no library destination: on a DLL-style platform it registers one
rule, at `bin`, instead of the two rules of the claim, and on a non-DLL platform it
registers none instead of one. And with a token `L` that holds a NUL character, `li`,
NUL, `b`, the library rule is registered at the destination resolved from `li`, the
token cut at the NUL, not at the one resolved from the whole token. -/
theorem C6_keyword_as_destination_token :
    (env0 true).FindTarget "mylib" = some ⟨"mylib", .SHARED_LIBRARY⟩ ∧
    InitialPass (env0 true)
        ["TARGETS", "mylib", "LIBRARY", "DESTINATION", "RUNTIME", "RUNTIME", "DESTINATION", "bin"] []
      = ⟨none, [InstallGenerator.target ⟨"mylib", .SHARED_LIBRARY⟩
          (ComputeDestination (env0 true) (some "bin")) false]⟩ ∧
    (InitialPass (env0 true)
        ["TARGETS", "mylib", "LIBRARY", "DESTINATION", "RUNTIME", "RUNTIME", "DESTINATION", "bin"]
        []).generators
      ≠ [InstallGenerator.target ⟨"mylib", .SHARED_LIBRARY⟩
            (ComputeDestination (env0 true) (some "RUNTIME")) true,
          InstallGenerator.target ⟨"mylib", .SHARED_LIBRARY⟩
            (ComputeDestination (env0 true) (some "bin")) false] ∧
    InitialPass (env0 false)
        ["TARGETS", "mylib", "LIBRARY", "DESTINATION", "RUNTIME", "RUNTIME", "DESTINATION", "bin"] []
      = ⟨none, []⟩ ∧
    isTargetsKeyword "li\x00b" = false ∧
    InitialPass (env0 true)
        ["TARGETS", "mylib", "LIBRARY", "DESTINATION", "li\x00b", "RUNTIME", "DESTINATION", "bin"] []
      = ⟨none, [InstallGenerator.target ⟨"mylib", .SHARED_LIBRARY⟩
            "$\x7bCMAKE_INSTALL_PREFIX\x7d/li" true,
          InstallGenerator.target ⟨"mylib", .SHARED_LIBRARY⟩
            "$\x7bCMAKE_INSTALL_PREFIX\x7d/bin" false]⟩ ∧
    ComputeDestination (env0 true) (some "li\x00b") = "$\x7bCMAKE_INSTALL_PREFIX\x7d/li\x00b" ∧
    (InitialPass (env0 true)
        ["TARGETS", "mylib", "LIBRARY", "DESTINATION", "li\x00b", "RUNTIME", "DESTINATION", "bin"]
        []).generators
      ≠ [InstallGenerator.target ⟨"mylib", .SHARED_LIBRARY⟩
            (ComputeDestination (env0 true) (some "li\x00b")) true,
          InstallGenerator.target ⟨"mylib", .SHARED_LIBRARY⟩
            (ComputeDestination (env0 true) (some "bin")) false] := by
  decide

/-- C6 (amended): for every target name `t` resolving to a shared library and all
destination tokens `L` and `R`, none of the three being one of the keywords
`DESTINATION`, `LIBRARY`, `RUNTIME`, the directive
`TARGETS t LIBRARY DESTINATION L RUNTIME DESTINATION R` succeeds; on a DLL-style
platform it registers exactly two TargetRules for the target, in this order: one with
`isImportLibrary = true` at the destination resolved from `L` read as a C string and
one with `isImportLibrary = false` at the destination resolved from `R` read as a C
string; on a non-DLL platform it registers exactly one, at the destination resolved
from `L` read as a C string, and none for `R`. A token read as a C string is the
token up to its first NUL character: the token itself when it holds no NUL. -/
theorem C6_shared_library_rules (env : Env) (t L R : String) (target : cmTarget)
    (gens : List InstallGenerator)
    (ht : isTargetsKeyword t = false) (hL : isTargetsKeyword L = false)
    (hR : isTargetsKeyword R = false)
    (hfind : env.FindTarget t = some target) (hty : target.GetType = .SHARED_LIBRARY) :
    InitialPass env ["TARGETS", t, "LIBRARY", "DESTINATION", L, "RUNTIME", "DESTINATION", R] gens
      = ⟨none, gens ++
          (if env.dllPlatform then
            [InstallGenerator.target target (ComputeDestination env (some (c_str L))) true,
             InstallGenerator.target target (ComputeDestination env (some (c_str R))) false]
          else
            [InstallGenerator.target target (ComputeDestination env (some (c_str L))) false])⟩ ∧
    ((∀ c ∈ L.data, c ≠ Char.ofNat 0) → c_str L = L) ∧
    ((∀ c ∈ R.data, c ≠ Char.ofNat 0) → c_str R = R) := by
  refine ⟨?_, c_str_of_no_nul L, c_str_of_no_nul R⟩
  obtain ⟨ht1, ht2, ht3⟩ := isTargetsKeyword_eq_false t ht
  obtain ⟨hL1, hL2, hL3⟩ := isTargetsKeyword_eq_false L hL
  obtain ⟨hR1, hR2, hR3⟩ := isTargetsKeyword_eq_false R hR
  have hp : HandleTargetsMode.parse env
      [t, "LIBRARY", "DESTINATION", L, "RUNTIME", "DESTINATION", R] TargetsState.init
      = .ok { doing_targets := false, doing_destination := false, library_settings := false,
              runtime_settings := true, targets := [target],
              library_destination := some (c_str L),
              runtime_destination := some (c_str R) } := by
    simp [HandleTargetsMode.parse, HandleTargetsMode.step, TargetsState.init,
      ht1, ht2, ht3, hL1, hL2, hL3, hR1, hR2, hR3, hfind, hty]
  have hrun := HandleTargetsMode_parse_ok env "TARGETS" _ gens _ hp
  rw [InitialPass_TARGETS, hrun]
  cases hdll : env.dllPlatform <;>
    simp [HandleTargetsMode.generate, hty, hdll]

/-- C6 (witness): the amended statement at `TARGETS mylib LIBRARY DESTINATION lib
RUNTIME DESTINATION bin` on a DLL-style platform. -/
theorem C6_shared_library_rules_witness :
    InitialPass (env0 true)
        ["TARGETS", "mylib", "LIBRARY", "DESTINATION", "lib", "RUNTIME", "DESTINATION", "bin"] []
      = ⟨none, [] ++
          (if (env0 true).dllPlatform then
            [InstallGenerator.target ⟨"mylib", .SHARED_LIBRARY⟩
               (ComputeDestination (env0 true) (some (c_str "lib"))) true,
             InstallGenerator.target ⟨"mylib", .SHARED_LIBRARY⟩
               (ComputeDestination (env0 true) (some (c_str "bin"))) false]
          else [InstallGenerator.target ⟨"mylib", .SHARED_LIBRARY⟩
               (ComputeDestination (env0 true) (some (c_str "lib"))) false])⟩ ∧
    c_str "lib" = "lib" ∧ c_str "bin" = "bin" :=
  ⟨(C6_shared_library_rules (env0 true) "mylib" "lib" "bin" ⟨"mylib", .SHARED_LIBRARY⟩ []
      (by decide) (by decide) (by decide) (by decide) (by decide)).1,
    by decide, by decide⟩

/-! ## C7: validation of the targets -/

/-- One iteration of the targets loop on a token that names an installable target. -/
theorem targets_step_collect (env : Env) (st : TargetsState) (a : String) (t : cmTarget)
    (hdt : st.doing_targets = true) (hkw : isTargetsKeyword a = false)
    (hfind : env.FindTarget a = some t) (hinst : t.Installable) :
    HandleTargetsMode.step env st a = .ok { st with targets := st.targets ++ [t] } := by
  obtain ⟨h1, h2, h3⟩ := isTargetsKeyword_eq_false a hkw
  have hty : ¬ (t.GetType ≠ .EXECUTABLE ∧ t.GetType ≠ .STATIC_LIBRARY ∧
      t.GetType ≠ .SHARED_LIBRARY ∧ t.GetType ≠ .MODULE_LIBRARY) := by
    unfold cmTarget.Installable at hinst
    tauto
  simp only [HandleTargetsMode.step, h1, h2, h3, if_false, hdt, if_true, hfind, hty]

/-- The targets loop over a run of tokens that name installable targets. -/
theorem targets_parse_collect (env : Env) (pre : List String) (l : List String) :
    ∀ (st : TargetsState), st.doing_targets = true →
      (∀ a ∈ pre, isTargetsKeyword a = false ∧
        ∃ t, env.FindTarget a = some t ∧ t.Installable) →
      HandleTargetsMode.parse env (pre ++ l) st
        = HandleTargetsMode.parse env l
            { st with targets := st.targets ++ pre.filterMap env.FindTarget } := by
  induction pre with
  | nil => intro st _ _; simp
  | cons a rest ih =>
      intro st hdt hpre
      obtain ⟨hkw, t, hfind, hinst⟩ := hpre a (List.mem_cons_self _ _)
      rw [List.cons_append, HandleTargetsMode.parse,
        targets_step_collect env st a t hdt hkw hfind hinst]
      simp only
      rw [ih { st with targets := st.targets ++ [t] } hdt
        (fun b hb => hpre b (List.mem_cons_of_mem _ hb))]
      simp [List.filterMap_cons, hfind]

/-- C7: in a Targets directive whose tokens `pre` all name installable targets, a next
token `tok` (not a keyword, so scanned while targets are collected) that does not
resolve makes the directive fail with UnknownTarget naming `tok`, and one that
resolves to a target of another kind makes it fail with InvalidTargetType naming
`tok`; in both cases the registry is unchanged, whatever tokens follow. -/
theorem C7_target_validation (env : Env) (pre : List String) (tok : String)
    (post : List String) (gens : List InstallGenerator)
    (hpre : ∀ a ∈ pre, isTargetsKeyword a = false ∧
      ∃ t, env.FindTarget a = some t ∧ t.Installable)
    (htok : isTargetsKeyword tok = false) :
    (env.FindTarget tok = none →
      InitialPass env ("TARGETS" :: (pre ++ tok :: post)) gens
        = ⟨some (InstallError.unknownTarget tok), gens⟩) ∧
    (∀ t, env.FindTarget tok = some t → ¬ t.Installable →
      InitialPass env ("TARGETS" :: (pre ++ tok :: post)) gens
        = ⟨some (InstallError.invalidTargetType tok), gens⟩) ∧
    (InstallError.unknownTarget tok).message
      = "TARGETS given target \"" ++ tok ++ "\" which does not exist in this directory." ∧
    (InstallError.invalidTargetType tok).message
      = "TARGETS given target \"" ++ tok
          ++ "\" which is not an executable, library, or module." := by
  obtain ⟨h1, h2, h3⟩ := isTargetsKeyword_eq_false tok htok
  have hcollect := targets_parse_collect env pre (tok :: post) TargetsState.init rfl hpre
  refine ⟨?_, ?_, rfl, rfl⟩
  · intro hfind
    rw [InitialPass_TARGETS]
    apply HandleTargetsMode_parse_error
    rw [hcollect, HandleTargetsMode.parse]
    simp [HandleTargetsMode.step, h1, h2, h3, hfind, TargetsState.init]
  · intro t hfind hinst
    have hty : t.GetType ≠ .EXECUTABLE ∧ t.GetType ≠ .STATIC_LIBRARY ∧
        t.GetType ≠ .SHARED_LIBRARY ∧ t.GetType ≠ .MODULE_LIBRARY := by
      unfold cmTarget.Installable at hinst
      tauto
    rw [InitialPass_TARGETS]
    apply HandleTargetsMode_parse_error
    rw [hcollect, HandleTargetsMode.parse]
    simp [HandleTargetsMode.step, h1, h2, h3, hfind, TargetsState.init, hty]

/-- C7 (witness): `TARGETS myexe nosuch DESTINATION bin` fails with UnknownTarget. -/
theorem C7_target_validation_witness :
    InitialPass (env0 false) ("TARGETS" :: (["myexe"] ++ "nosuch" :: ["DESTINATION", "bin"])) []
      = ⟨some (InstallError.unknownTarget "nosuch"), []⟩ :=
  (C7_target_validation (env0 false) ["myexe"] "nosuch" ["DESTINATION", "bin"] []
    (by
      intro a ha
      rw [List.mem_singleton] at ha
      subst ha
      exact ⟨by decide, ⟨"myexe", .EXECUTABLE⟩, by decide, Or.inl rfl⟩)
    (by decide)).1 (by decide)

/-! ## C8: the dispatcher -/

/-- The errors script mode can raise. -/
theorem HandleScriptMode_error_kinds (env : Env) (args : List String)
    (gens : List InstallGenerator) (e : InstallError)
    (h : (HandleScriptMode env args gens).error = some e) :
    e = InstallError.scriptNoValue ∨ e = InstallError.scriptDirectory := by
  have hrun : HandleScriptMode env args gens
      = HandleScriptMode.loop env args (decide (("" : String) = "SCRIPT")) gens := by
    simp [HandleScriptMode]
  rw [hrun] at h
  rcases HandleScriptMode_loop_spec env args "" gens with h1 | h1 | h1
  · rw [h1.1] at h; simp at h
  · rw [h1.1] at h; injection h with h; exact Or.inl h.symm
  · rw [h1.1] at h; injection h with h; exact Or.inr h.symm

/-- The errors targets mode can raise. -/
theorem HandleTargetsMode_error_kinds (env : Env) (arg0 : String) (tail : List String)
    (gens : List InstallGenerator) (e : InstallError)
    (h : (HandleTargetsMode env (arg0 :: tail) gens).error = some e) :
    (∃ a, e = InstallError.invalidTargetType a ∨ e = InstallError.unknownTarget a ∨
      e = InstallError.targetsUnknownArgument a) ∨
    e = InstallError.targetsNoDestination ∨
    (∃ n, e = InstallError.noRuntimeDestination n) ∨
    (∃ b n, e = InstallError.noLibraryDestination b n) := by
  cases hp : HandleTargetsMode.parse env tail TargetsState.init with
  | error e1 =>
      rw [HandleTargetsMode_parse_error env arg0 tail gens e1 hp] at h
      injection h with h
      subst h
      obtain ⟨a, _, ha⟩ := targets_parse_error env tail _ _ hp
      exact Or.inl ⟨a, ha⟩
  | ok st =>
      rw [HandleTargetsMode_parse_ok env arg0 tail gens st hp] at h
      by_cases hempty : st.targets = []
      · simp [hempty] at h
      · rw [if_neg hempty] at h
        by_cases hdest : st.library_destination = none ∧ st.runtime_destination = none
        · rw [if_pos hdest] at h
          injection h with h
          exact Or.inr (Or.inl h.symm)
        · rw [if_neg hdest] at h
          rcases targets_split_first_error st.library_destination st.runtime_destination
            st.targets with hall | ⟨done, t, rest, e1, hsplit, hdone, ht⟩
          · rw [generate_all_ok env _ _ _ _ st.targets gens hall] at h
            simp at h
          · rw [hsplit, generate_first_error env _ _ _ _ done t rest e1 gens hdone ht] at h
            injection h with h
            subst h
            rcases targetError_some_kind _ _ t _ ht with h1 | ⟨b, h1⟩
            · exact Or.inr (Or.inr (Or.inl ⟨_, h1⟩))
            · exact Or.inr (Or.inr (Or.inr ⟨b, _, h1⟩))

/-- The errors one iteration of the files loop can raise. -/
theorem files_step_error (env : Env) (arg0 : String) (st : FilesState) (a : String)
    (e : InstallError) (h : HandleFilesMode.step env arg0 st a = .error e) :
    e = InstallError.filesDirectory arg0 a ∨ e = InstallError.invalidPermission arg0 a ∨
      e = InstallError.filesUnknownArgument arg0 a := by
  unfold HandleFilesMode.step at h
  simp only at h
  split_ifs at h <;> simp_all

/-- The errors the files loop can raise. -/
theorem files_parse_error (env : Env) (arg0 : String) (l : List String) :
    ∀ (st : FilesState) (e : InstallError), HandleFilesMode.parse env arg0 l st = .error e →
      ∃ a ∈ l, e = InstallError.filesDirectory arg0 a ∨
        e = InstallError.invalidPermission arg0 a ∨
        e = InstallError.filesUnknownArgument arg0 a := by
  induction l with
  | nil => intro st e h; simp [HandleFilesMode.parse] at h
  | cons a rest ih =>
      intro st e h
      rw [HandleFilesMode.parse] at h
      cases hs : HandleFilesMode.step env arg0 st a with
      | error e1 =>
          rw [hs] at h
          injection h with h
          subst h
          exact ⟨a, List.mem_cons_self _ _, files_step_error env arg0 st a e1 hs⟩
      | ok st1 =>
          rw [hs] at h
          obtain ⟨b, hb, hbe⟩ := ih st1 e h
          exact ⟨b, List.mem_cons_of_mem _ hb, hbe⟩

/-- The errors files mode can raise. -/
theorem HandleFilesMode_error_kinds (env : Env) (arg0 : String) (tail : List String)
    (gens : List InstallGenerator) (e : InstallError)
    (h : (HandleFilesMode env (arg0 :: tail) gens).error = some e) :
    (∃ a, e = InstallError.filesDirectory arg0 a ∨ e = InstallError.invalidPermission arg0 a ∨
      e = InstallError.filesUnknownArgument arg0 a) ∨
    e = InstallError.filesNoDestination arg0 ∨ e = InstallError.renameMultipleFiles arg0 := by
  cases hp : HandleFilesMode.parse env arg0 tail FilesState.init with
  | error e1 =>
      rw [HandleFilesMode_parse_error env arg0 tail gens e1 hp] at h
      injection h with h
      subst h
      obtain ⟨a, _, ha⟩ := files_parse_error env arg0 tail _ _ hp
      exact Or.inl ⟨a, ha⟩
  | ok st =>
      rw [HandleFilesMode_parse_ok env arg0 tail gens st hp] at h
      by_cases hf : st.files = []
      · simp [hf] at h
      · rw [if_neg hf] at h
        by_cases hd : st.destination = none
        · rw [if_pos hd] at h
          injection h with h
          exact Or.inr (Or.inl h.symm)
        · rw [if_neg hd] at h
          by_cases hr : st.rename ≠ "" ∧ st.files.length > 1
          · rw [if_pos hr] at h
            injection h with h
            exact Or.inr (Or.inr h.symm)
          · rw [if_neg hr] at h
            simp at h

/-- The first character of a string that starts with a given character. -/
theorem head_data_append (s t : String) (c : Char) (h : s.data.head? = some c) :
    (s ++ t).data.head? = some c := by
  rw [String.data_append]
  cases hs : s.data <;> simp_all

/-- The message of an error raised under one of the four mode tokens does not start
with the letter `c`, the first letter of the UnknownMode message. -/
theorem handler_message_head (e : InstallError)
    (h : (e = InstallError.scriptNoValue ∨ e = InstallError.scriptDirectory) ∨
      ((∃ a, e = InstallError.invalidTargetType a ∨ e = InstallError.unknownTarget a ∨
          e = InstallError.targetsUnknownArgument a) ∨
        e = InstallError.targetsNoDestination ∨
        (∃ n, e = InstallError.noRuntimeDestination n) ∨
        (∃ b n, e = InstallError.noLibraryDestination b n)) ∨
      (∃ arg0, (arg0 = "FILES" ∨ arg0 = "PROGRAMS") ∧
        ((∃ a, e = InstallError.filesDirectory arg0 a ∨
            e = InstallError.invalidPermission arg0 a ∨
            e = InstallError.filesUnknownArgument arg0 a) ∨
          e = InstallError.filesNoDestination arg0 ∨
          e = InstallError.renameMultipleFiles arg0))) :
    e.message.data.head? ≠ some 'c' := by
  rcases h with (rfl | rfl) | ((⟨a, rfl | rfl | rfl⟩ | rfl | ⟨n, rfl⟩ | ⟨b, n, rfl⟩) |
    ⟨arg0, (rfl | rfl), (⟨a, rfl | rfl | rfl⟩ | rfl | rfl)⟩)
  all_goals first
    | decide
    | (simp only [InstallError.message, String.append_assoc]
       first
        | rw [head_data_append _ _ 'T' (by decide)]
        | rw [head_data_append _ _ 'F' (by decide)]
        | rw [head_data_append _ _ 'P' (by decide)]
       decide)

/-- C8: a non-empty token sequence whose first token is none of `SCRIPT`, `TARGETS`,
`FILES`, `PROGRAMS` fails with UnknownMode carrying `args[0]`, with the message
"called with unknown mode " followed by `args[0]`, and the registry is unchanged; the
empty sequence succeeds with no effect; and under one of the four mode tokens no
error is UnknownMode, nor has any error the message of an UnknownMode error. -/
theorem C8_dispatcher (env : Env) (arg0 : String) (tail : List String)
    (gens : List InstallGenerator) :
    (arg0 ≠ "SCRIPT" → arg0 ≠ "TARGETS" → arg0 ≠ "FILES" → arg0 ≠ "PROGRAMS" →
      InitialPass env (arg0 :: tail) gens
        = ⟨some (InstallError.unknownMode arg0), gens⟩) ∧
    (InstallError.unknownMode arg0).message = "called with unknown mode " ++ arg0 ∧
    InitialPass env [] gens = ⟨none, gens⟩ ∧
    (arg0 = "SCRIPT" ∨ arg0 = "TARGETS" ∨ arg0 = "FILES" ∨ arg0 = "PROGRAMS" →
      ∀ e, (InitialPass env (arg0 :: tail) gens).error = some e →
        (∀ x, e ≠ InstallError.unknownMode x) ∧
        (∀ x, e.message ≠ (InstallError.unknownMode x).message)) := by
  refine ⟨?_, rfl, rfl, ?_⟩
  · intro h1 h2 h3 h4
    simp [InitialPass, h1, h2, h3, h4]
  · intro hmode e he
    have hhead : e.message.data.head? ≠ some 'c' := by
      apply handler_message_head
      rcases hmode with rfl | rfl | rfl | rfl
      · rw [InitialPass_SCRIPT] at he
        exact Or.inl (HandleScriptMode_error_kinds env _ gens e he)
      · rw [InitialPass_TARGETS] at he
        exact Or.inr (Or.inl (HandleTargetsMode_error_kinds env _ tail gens e he))
      · rw [InitialPass_FILES] at he
        exact Or.inr (Or.inr ⟨"FILES", Or.inl rfl,
          HandleFilesMode_error_kinds env _ tail gens e he⟩)
      · rw [InitialPass_PROGRAMS] at he
        exact Or.inr (Or.inr ⟨"PROGRAMS", Or.inr rfl,
          HandleFilesMode_error_kinds env _ tail gens e he⟩)
    have hmsg : ∀ x, e.message ≠ (InstallError.unknownMode x).message := by
      intro x hx
      apply hhead
      rw [hx]
      exact head_data_append _ _ 'c' (by decide)
    exact ⟨fun x hx => hmsg x (by rw [hx]), hmsg⟩

/-- C8 (witness): `install(BOGUS a b)` fails with UnknownMode carrying `BOGUS`. -/
theorem C8_dispatcher_witness :
    InitialPass (env0 false) ("BOGUS" :: ["a", "b"]) []
      = ⟨some (InstallError.unknownMode "BOGUS"), []⟩ :=
  (C8_dispatcher (env0 false) "BOGUS" ["a", "b"] []).1
    (by decide) (by decide) (by decide) (by decide)

/-! ## C9: what a successful Files/Programs directive registers -/

/-- A target raises an error exactly when it lacks the destination its kind requires. -/
theorem targetError_eq_none_iff (ld rd : Option String) (t : cmTarget) :
    targetError ld rd t = none ↔ ¬ lacksDestination ld rd t := by
  obtain ⟨name, ty⟩ := t
  cases ty <;> cases ld <;> cases rd <;> simp [targetError, lacksDestination]

/-- The error of a target that lacks the destination its kind requires. -/
theorem targetError_of_lacks (ld rd : Option String) (t : cmTarget)
    (h : lacksDestination ld rd t) :
    targetError ld rd t = some
      (if t.GetType = .EXECUTABLE then InstallError.noRuntimeDestination t.GetName
       else InstallError.noLibraryDestination (decide (t.GetType = .STATIC_LIBRARY))
         t.GetName) := by
  obtain ⟨name, ty⟩ := t
  cases ty <;> cases ld <;> cases rd <;> simp_all [targetError, lacksDestination]

/-- C10: for a Targets directive whose argument loop completes with a non-empty
target list and at least one destination, rule generation fails iff some target is
an executable while no runtime destination was set, or a static library or module
while no library destination was set; the error is then, for the first such target
in list order, MissingRuntimeDestination naming it if it is an executable and
MissingLibraryDestination naming it and telling static library from module
otherwise; a list of shared libraries never fails, on either platform family. -/
theorem C10_per_kind_destination (env : Env) (tail : List String)
    (gens : List InstallGenerator) (st : TargetsState)
    (hp : HandleTargetsMode.parse env tail TargetsState.init = .ok st)
    (hne : st.targets ≠ [])
    (hdest : st.library_destination ≠ none ∨ st.runtime_destination ≠ none) :
    ((HandleTargetsMode env ("TARGETS" :: tail) gens).error ≠ none ↔
      ∃ t ∈ st.targets, lacksDestination st.library_destination st.runtime_destination t) ∧
    (∀ done t rest, st.targets = done ++ t :: rest →
      (∀ u ∈ done, ¬ lacksDestination st.library_destination st.runtime_destination u) →
      lacksDestination st.library_destination st.runtime_destination t →
      (HandleTargetsMode env ("TARGETS" :: tail) gens).error = some
        (if t.GetType = .EXECUTABLE then InstallError.noRuntimeDestination t.GetName
         else InstallError.noLibraryDestination (decide (t.GetType = .STATIC_LIBRARY))
           t.GetName)) ∧
    ((∀ t ∈ st.targets, t.GetType = .SHARED_LIBRARY) →
      (HandleTargetsMode env ("TARGETS" :: tail) gens).error = none) := by
  have hnd : ¬ (st.library_destination = none ∧ st.runtime_destination = none) := by
    rintro ⟨h1, h2⟩
    rcases hdest with h | h
    · exact h h1
    · exact h h2
  have hrun : HandleTargetsMode env ("TARGETS" :: tail) gens
      = HandleTargetsMode.generate env st.library_destination st.runtime_destination
          (ComputeDestination env st.library_destination)
          (ComputeDestination env st.runtime_destination) st.targets gens := by
    rw [HandleTargetsMode_parse_ok env "TARGETS" tail gens st hp, if_neg hne, if_neg hnd]
  have hfirst : ∀ done t rest, st.targets = done ++ t :: rest →
      (∀ u ∈ done, ¬ lacksDestination st.library_destination st.runtime_destination u) →
      lacksDestination st.library_destination st.runtime_destination t →
      (HandleTargetsMode env ("TARGETS" :: tail) gens).error = some
        (if t.GetType = .EXECUTABLE then InstallError.noRuntimeDestination t.GetName
         else InstallError.noLibraryDestination (decide (t.GetType = .STATIC_LIBRARY))
           t.GetName) := by
    intro done t rest hsplit hdone ht
    rw [hrun, hsplit, generate_first_error env _ _ _ _ done t rest _ gens
      (fun u hu => (targetError_eq_none_iff _ _ u).2 (hdone u hu))
      (targetError_of_lacks _ _ t ht)]
  have hnone : (∀ t ∈ st.targets,
      ¬ lacksDestination st.library_destination st.runtime_destination t) →
      (HandleTargetsMode env ("TARGETS" :: tail) gens).error = none := by
    intro hall
    rw [hrun, generate_all_ok env _ _ _ _ st.targets gens
      (fun t ht => (targetError_eq_none_iff _ _ t).2 (hall t ht))]
  refine ⟨⟨?_, ?_⟩, hfirst, ?_⟩
  · intro herr
    by_contra hcon
    apply herr
    apply hnone
    intro t ht hl
    exact hcon ⟨t, ht, hl⟩
  · rintro ⟨t, ht, hl⟩
    rcases targets_split_first_error st.library_destination st.runtime_destination
      st.targets with hall | ⟨done, u, rest, e, hsplit, hdone, hu⟩
    · exact absurd hl ((targetError_eq_none_iff _ _ t).1 (hall t ht))
    · rw [hrun, hsplit, generate_first_error env _ _ _ _ done u rest e gens hdone hu]
      simp
  · intro hshared
    apply hnone
    intro t ht hl
    have hty := hshared t ht
    unfold lacksDestination at hl
    rw [hty] at hl
    simp at hl

/-- C10 (witness): `TARGETS mystatic myexe LIBRARY DESTINATION lib` fails with
MissingRuntimeDestination naming `myexe`, the first target without its destination. -/
theorem C10_per_kind_destination_witness :
    (HandleTargetsMode (env0 true)
        ("TARGETS" :: ["mystatic", "myexe", "LIBRARY", "DESTINATION", "lib"]) []).error
      = some (if (⟨"myexe", .EXECUTABLE⟩ : cmTarget).GetType = .EXECUTABLE then
          InstallError.noRuntimeDestination (⟨"myexe", .EXECUTABLE⟩ : cmTarget).GetName
        else InstallError.noLibraryDestination
          (decide ((⟨"myexe", .EXECUTABLE⟩ : cmTarget).GetType = .STATIC_LIBRARY))
          (⟨"myexe", .EXECUTABLE⟩ : cmTarget).GetName) :=
  (C10_per_kind_destination (env0 true) ["mystatic", "myexe", "LIBRARY", "DESTINATION", "lib"] []
    { doing_targets := false, doing_destination := false, library_settings := true,
      runtime_settings := false,
      targets := [⟨"mystatic", .STATIC_LIBRARY⟩, ⟨"myexe", .EXECUTABLE⟩],
      library_destination := some "lib", runtime_destination := none }
    (by rfl) (by decide) (Or.inl (by decide))).2.1
    [⟨"mystatic", .STATIC_LIBRARY⟩] ⟨"myexe", .EXECUTABLE⟩ [] (by rfl)
    (by
      intro u hu
      rw [List.mem_singleton] at hu
      subst hu
      simp [lacksDestination])
    (Or.inl ⟨rfl, rfl⟩)

/-! ## C11: the permission validator -/

/-- C11: `CheckPermissions(arg, acc)` returns true and leaves the accumulator equal to
`acc ++ " " ++ arg` iff `arg` is exactly one of the 11 permission tokens; otherwise it
returns false and the accumulator is still `acc`. -/
theorem C11_permission_validator (arg acc : String) :
    (CheckPermissions arg acc = (true, acc ++ " " ++ arg) ↔
      (arg = "OWNER_READ" ∨ arg = "OWNER_WRITE" ∨ arg = "OWNER_EXECUTE" ∨
        arg = "GROUP_READ" ∨ arg = "GROUP_WRITE" ∨ arg = "GROUP_EXECUTE" ∨
        arg = "WORLD_READ" ∨ arg = "WORLD_WRITE" ∨ arg = "WORLD_EXECUTE" ∨
        arg = "SETUID" ∨ arg = "SETGID")) ∧
    (¬ (arg = "OWNER_READ" ∨ arg = "OWNER_WRITE" ∨ arg = "OWNER_EXECUTE" ∨
        arg = "GROUP_READ" ∨ arg = "GROUP_WRITE" ∨ arg = "GROUP_EXECUTE" ∨
        arg = "WORLD_READ" ∨ arg = "WORLD_WRITE" ∨ arg = "WORLD_EXECUTE" ∨
        arg = "SETUID" ∨ arg = "SETGID") →
      CheckPermissions arg acc = (false, acc)) := by
  have hmem : arg ∈ permissionTable ↔
      (arg = "OWNER_READ" ∨ arg = "OWNER_WRITE" ∨ arg = "OWNER_EXECUTE" ∨
        arg = "GROUP_READ" ∨ arg = "GROUP_WRITE" ∨ arg = "GROUP_EXECUTE" ∨
        arg = "WORLD_READ" ∨ arg = "WORLD_WRITE" ∨ arg = "WORLD_EXECUTE" ∨
        arg = "SETUID" ∨ arg = "SETGID") := by
    simp [permissionTable]
  rw [← hmem, CheckPermissions_eq]
  by_cases h : arg ∈ permissionTable
  · simp [h]
  · simp [h]

/-- C11 (witness): `BOGUS` is rejected and `owner_read`, in lower case, is too. -/
theorem C11_permission_validator_witness :
    CheckPermissions "BOGUS" " OWNER_READ" = (false, " OWNER_READ") ∧
    CheckPermissions "owner_read" "" = (false, "") :=
  ⟨(C11_permission_validator "BOGUS" " OWNER_READ").2 (by decide),
    (C11_permission_validator "owner_read" "").2 (by decide)⟩

/-! ## C12 and C13: the destination resolver -/

/-- Removing trailing elements keeps a leading block whose last element stays. -/
theorem rdropWhile_append_keep (p : Char → Bool) (P : List Char) (hP : P ≠ [])
    (hlast : ¬ p (P.getLast hP) = true) (L : List Char) :
    ∃ R, (P ++ L).rdropWhile p = P ++ R := by
  induction L using List.reverseRecOn with
  | nil =>
      refine ⟨[], ?_⟩
      simp only [List.append_nil]
      exact List.rdropWhile_eq_self_iff.2 (fun _ => hlast)
  | append_singleton L x ih =>
      rw [← List.append_assoc, List.rdropWhile_concat]
      by_cases hx : p x = true
      · rw [if_pos hx]; exact ih
      · rw [if_neg hx]; exact ⟨L ++ [x], by simp⟩

/-- The result of the slash normalisation of the spec does not end with a slash. -/
theorem ConvertToUnixSlashesSpec_last (s : String) :
    (ConvertToUnixSlashesSpec s).data.getLast? ≠ some '/' := by
  unfold ConvertToUnixSlashesSpec
  simp only
  by_cases hnil : (s.data.map (fun c => if c = Char.ofNat 92 then '/' else c)).rdropWhile
      (fun c => c == '/') = []
  · rw [hnil]; simp
  · rw [List.getLast?_eq_getLast _ hnil]
    intro h
    have hnot := List.rdropWhile_last_not (fun c => c == '/')
      (s.data.map (fun c => if c = Char.ofNat 92 then '/' else c)) hnil
    apply hnot
    have h2 := Option.some.inj h
    simp [h2]

/-- C12: for every destination token `d` that the path predicate does not recognise as
absolute (the empty string and tokens ending in separators included), the resolved
destination begins with the placeholder `$\x7bCMAKE_INSTALL_PREFIX\x7d` and does not
end with a `/`; for an absent destination the result is the empty string. -/
theorem C12_relative_destination (env : Env) (d : String)
    (hnorm : env.ConvertToUnixSlashes = ConvertToUnixSlashesSpec)
    (hrel : env.FileIsFullPath d = false) :
    (∃ rest, ComputeDestination env (some d) = installPrefixPlaceholder ++ rest) ∧
    (ComputeDestination env (some d)).data.getLast? ≠ some '/' ∧
    ComputeDestination env none = "" := by
  have hcd : ComputeDestination env (some d)
      = ConvertToUnixSlashesSpec ("$\x7bCMAKE_INSTALL_PREFIX\x7d/" ++ d) := by
    simp [ComputeDestination, hrel, hnorm]
  refine ⟨?_, ?_, rfl⟩
  · rw [hcd]
    unfold ConvertToUnixSlashesSpec
    simp only [String.data_append, List.map_append]
    have hP : (("$\x7bCMAKE_INSTALL_PREFIX\x7d/" : String).data.map
        (fun c => if c = Char.ofNat 92 then '/' else c))
        = installPrefixPlaceholder.data ++ ['/'] := by decide
    rw [hP, List.append_assoc]
    obtain ⟨R, hR⟩ := rdropWhile_append_keep (fun c => c == '/')
      installPrefixPlaceholder.data (by decide) (by decide)
      (['/'] ++ d.data.map (fun c => if c = Char.ofNat 92 then '/' else c))
    rw [hR]
    exact ⟨String.mk R, String.ext (by simp [String.data_append])⟩
  · rw [hcd]
    exact ConvertToUnixSlashesSpec_last _

/-- C12 (witness): the relative destination `lib//` resolves to the placeholder
followed by `/lib`. -/
theorem C12_relative_destination_witness :
    env1.FileIsFullPath "lib//" = false ∧
    ComputeDestination env1 (some "lib//") = "$\x7bCMAKE_INSTALL_PREFIX\x7d/lib" ∧
    ((∃ rest, ComputeDestination env1 (some "lib//") = installPrefixPlaceholder ++ rest) ∧
      (ComputeDestination env1 (some "lib//")).data.getLast? ≠ some '/' ∧
      ComputeDestination env1 none = "") :=
  ⟨by decide, by decide, C12_relative_destination env1 "lib//" rfl (by decide)⟩

/-- C14 (counterexample): with the destination token `d = "RUNTIME"` the directive
`TARGETS myexe DESTINATION RUNTIME` reads `d` as a keyword, sets no destination and
fails with MissingDestination; with the target name `t = "RUNTIME"`, absent from the
registry, `TARGETS RUNTIME DESTINATION bin` collects no target and succeeds without
UnknownTarget. And with a token `d` that holds a NUL character, `bi`, NUL, `n`, the
rule is registered at the destination resolved from `bi`, the token cut at the NUL,
not at the one resolved from the whole token. -/
theorem C14_keyword_as_token :
    (env0 false).FindTarget "myexe" = some ⟨"myexe", .EXECUTABLE⟩ ∧
    InitialPass (env0 false) ["TARGETS", "myexe", "DESTINATION", "RUNTIME"] []
      = ⟨some InstallError.targetsNoDestination, []⟩ ∧
    (env0 false).FindTarget "RUNTIME" = none ∧
    InitialPass (env0 false) ["TARGETS", "RUNTIME", "DESTINATION", "bin"] []
      = ⟨none, []⟩ ∧
    isTargetsKeyword "bi\x00n" = false ∧
    InitialPass (env0 false) ["TARGETS", "myexe", "DESTINATION", "bi\x00n"] []
      = ⟨none, [InstallGenerator.target ⟨"myexe", .EXECUTABLE⟩
          "$\x7bCMAKE_INSTALL_PREFIX\x7d/bi" false]⟩ ∧
    ComputeDestination (env0 false) (some "bi\x00n")
      = "$\x7bCMAKE_INSTALL_PREFIX\x7d/bi\x00n" ∧
    (InitialPass (env0 false) ["TARGETS", "myexe", "DESTINATION", "bi\x00n"] []).generators
      ≠ [InstallGenerator.target ⟨"myexe", .EXECUTABLE⟩
          (ComputeDestination (env0 false) (some "bi\x00n")) false] := by
  decide

/-- C14 (amended): for every target name `t` and destination token `d`, neither being
one of the keywords `DESTINATION`, `LIBRARY`, `RUNTIME`: if `t` resolves to an
executable, `TARGETS t DESTINATION d` succeeds on either platform family and registers
exactly one TargetRule, for that target, at the destination resolved from `d` read as
a C string, that is up to its first NUL character (`d` itself when it holds no NUL);
if `t` is not in the registry it fails with UnknownTarget naming `t` and registers
nothing. -/
theorem C14_executable_install (env : Env) (t d : String) (gens : List InstallGenerator)
    (ht : isTargetsKeyword t = false) (hd : isTargetsKeyword d = false) :
    (∀ target, env.FindTarget t = some target → target.GetType = .EXECUTABLE →
      InitialPass env ["TARGETS", t, "DESTINATION", d] gens
        = ⟨none, gens ++
            [InstallGenerator.target target (ComputeDestination env (some (c_str d))) false]⟩) ∧
    (env.FindTarget t = none →
      InitialPass env ["TARGETS", t, "DESTINATION", d] gens
        = ⟨some (InstallError.unknownTarget t), gens⟩) ∧
    ((∀ c ∈ d.data, c ≠ Char.ofNat 0) → c_str d = d) := by
  obtain ⟨ht1, ht2, ht3⟩ := isTargetsKeyword_eq_false t ht
  obtain ⟨hd1, hd2, hd3⟩ := isTargetsKeyword_eq_false d hd
  refine ⟨?_, ?_, c_str_of_no_nul d⟩
  · intro target hfind hty
    have hp : HandleTargetsMode.parse env [t, "DESTINATION", d] TargetsState.init
        = .ok { doing_targets := false, doing_destination := false, library_settings := true,
                runtime_settings := true, targets := [target],
                library_destination := some (c_str d),
                runtime_destination := some (c_str d) } := by
      simp [HandleTargetsMode.parse, HandleTargetsMode.step, TargetsState.init,
        ht1, ht2, ht3, hd1, hd2, hd3, hfind, hty]
    rw [InitialPass_TARGETS, HandleTargetsMode_parse_ok env "TARGETS" _ gens _ hp]
    simp [HandleTargetsMode.generate, hty]
  · intro hfind
    rw [InitialPass_TARGETS]
    apply HandleTargetsMode_parse_error
    simp [HandleTargetsMode.parse, HandleTargetsMode.step, TargetsState.init,
      ht1, ht2, ht3, hfind]

/-- C14 (witness): `TARGETS myexe DESTINATION bin` on a DLL-style platform. -/
theorem C14_executable_install_witness :
    InitialPass (env0 true) ["TARGETS", "myexe", "DESTINATION", "bin"] []
      = ⟨none, [] ++ [InstallGenerator.target ⟨"myexe", .EXECUTABLE⟩
          (ComputeDestination (env0 true) (some (c_str "bin"))) false]⟩ ∧
    c_str "bin" = "bin" :=
  ⟨(C14_executable_install (env0 true) "myexe" "bin" [] (by decide) (by decide)).1
      ⟨"myexe", .EXECUTABLE⟩ (by decide) rfl,
    by decide⟩

/-! ## The argument loops over a concatenation of tokens -/

/-- The files loop over `l1 ++ l2` is the loop over `l1` followed by the loop over `l2`. -/
theorem files_parse_append (env : Env) (arg0 : String) (l1 l2 : List String) :
    ∀ (st : FilesState), HandleFilesMode.parse env arg0 (l1 ++ l2) st
      = match HandleFilesMode.parse env arg0 l1 st with
        | .error e => .error e
        | .ok st1 => HandleFilesMode.parse env arg0 l2 st1 := by
  induction l1 with
  | nil => intro st; simp [HandleFilesMode.parse]
  | cons a rest ih =>
      intro st
      rw [List.cons_append, HandleFilesMode.parse, HandleFilesMode.parse]
      cases hs : HandleFilesMode.step env arg0 st a with
      | error e => rfl
      | ok st1 => exact ih st1

/-- The targets loop over `l1 ++ l2` is the loop over `l1` followed by the loop over `l2`. -/
theorem targets_parse_append (env : Env) (l1 l2 : List String) :
    ∀ (st : TargetsState), HandleTargetsMode.parse env (l1 ++ l2) st
      = match HandleTargetsMode.parse env l1 st with
        | .error e => .error e
        | .ok st1 => HandleTargetsMode.parse env l2 st1 := by
  induction l1 with
  | nil => intro st; simp [HandleTargetsMode.parse]
  | cons a rest ih =>
      intro st
      rw [List.cons_append, HandleTargetsMode.parse, HandleTargetsMode.parse]
      cases hs : HandleTargetsMode.step env st a with
      | error e => rfl
      | ok st1 => exact ih st1

/-- A valid permission token is not a keyword of files mode. -/
theorem permissionTable_not_keyword (p : String) (h : p ∈ permissionTable) :
    p ≠ "DESTINATION" ∧ p ≠ "PERMISSIONS" ∧ p ≠ "RENAME" := by
  simp only [permissionTable, List.mem_cons, List.mem_singleton, List.not_mem_nil,
    or_false] at h
  rcases h with rfl | rfl | rfl | rfl | rfl | rfl | rfl | rfl | rfl | rfl | rfl <;> decide

/-- The files loop over a run of valid permission tokens, while permissions are collected. -/
theorem files_parse_permissions (env : Env) (arg0 : String) (perms l : List String) :
    ∀ (st : FilesState), st.doing_files = false → st.doing_destination = false →
      st.doing_permissions = true → (∀ p ∈ perms, p ∈ permissionTable) →
      HandleFilesMode.parse env arg0 (perms ++ l) st
        = HandleFilesMode.parse env arg0 l
            { st with permissions := st.permissions ++ joinPermissions perms } := by
  induction perms with
  | nil => intro st _ _ _ _; simp [joinPermissions]
  | cons p rest ih =>
      intro st hf hd hp hperms
      have hmem := hperms p (List.mem_cons_self _ _)
      obtain ⟨h1, h2, h3⟩ := permissionTable_not_keyword p hmem
      have hs : HandleFilesMode.step env arg0 st p
          = .ok { st with permissions := st.permissions ++ " " ++ p } := by
        simp [HandleFilesMode.step, h1, h2, h3, hf, hd, hp, CheckPermissions_eq, hmem]
      rw [List.cons_append, HandleFilesMode.parse, hs]
      simp only
      rw [ih { st with permissions := st.permissions ++ " " ++ p } hf hd hp
        (fun q hq => hperms q (List.mem_cons_of_mem _ hq))]
      simp [joinPermissions_cons, String.append_assoc]

/-- The dispatcher under either mode token of files mode. -/
theorem InitialPass_files_mode (env : Env) (arg0 : String) (tail : List String)
    (gens : List InstallGenerator) (hmode : arg0 = "FILES" ∨ arg0 = "PROGRAMS") :
    InitialPass env (arg0 :: tail) gens = HandleFilesMode env (arg0 :: tail) gens := by
  rcases hmode with rfl | rfl
  · exact InitialPass_FILES env tail gens
  · exact InitialPass_PROGRAMS env tail gens

/-! ## C15: an invalid permission -/

/-- C15: in a Files/Programs directive whose tokens `pre` are read without error, a
token `tok` that follows a `PERMISSIONS` keyword and a run of valid permission tokens
(so is scanned while permissions are collected), is not a keyword and is not in the
11-entry vocabulary makes the directive fail with InvalidPermission naming `tok` and
the mode token; nothing is registered, whatever files, destination and valid
permissions came before and whatever follows. -/
theorem C15_invalid_permission (env : Env) (arg0 : String) (pre perms : List String)
    (tok : String) (post : List String) (gens : List InstallGenerator) (st0 : FilesState)
    (hmode : arg0 = "FILES" ∨ arg0 = "PROGRAMS")
    (hpre : HandleFilesMode.parse env arg0 pre FilesState.init = .ok st0)
    (hperms : ∀ p ∈ perms, p ∈ permissionTable)
    (hkw : isFilesKeyword tok = false) (htok : tok ∉ permissionTable) :
    InitialPass env (arg0 :: (pre ++ "PERMISSIONS" :: (perms ++ tok :: post))) gens
      = ⟨some (InstallError.invalidPermission arg0 tok), gens⟩ ∧
    (InstallError.invalidPermission arg0 tok).message
      = arg0 ++ " given invalid permission \"" ++ tok ++ "\"." := by
  refine ⟨?_, rfl⟩
  have hk : tok ≠ "DESTINATION" ∧ tok ≠ "PERMISSIONS" ∧ tok ≠ "RENAME" := by
    simpa [isFilesKeyword, and_assoc] using hkw
  obtain ⟨hk1, hk2, hk3⟩ := hk
  rw [InitialPass_files_mode env arg0 _ gens hmode]
  apply HandleFilesMode_parse_error
  rw [files_parse_append, hpre]
  simp only
  rw [HandleFilesMode.parse]
  have hs : HandleFilesMode.step env arg0 st0 "PERMISSIONS"
      = .ok { st0 with doing_files := false, doing_destination := false,
                       doing_permissions := true, doing_rename := false } := by
    simp [HandleFilesMode.step]
  rw [hs]
  simp only
  rw [files_parse_permissions env arg0 perms (tok :: post) _ rfl rfl rfl hperms,
    HandleFilesMode.parse]
  simp [HandleFilesMode.step, hk1, hk2, hk3, CheckPermissions_eq, htok]

/-- C15 (witness): `FILES foo.sh PERMISSIONS OWNER_READ BOGUS` fails with
InvalidPermission naming `BOGUS`. -/
theorem C15_invalid_permission_witness :
    InitialPass (env0 false)
        ("FILES" :: (["foo.sh"] ++ "PERMISSIONS" :: (["OWNER_READ"] ++ "BOGUS" :: []))) []
      = ⟨some (InstallError.invalidPermission "FILES" "BOGUS"), []⟩ :=
  (C15_invalid_permission (env0 false) "FILES" ["foo.sh"] ["OWNER_READ"] "BOGUS" [] []
    { doing_files := true, doing_destination := false, doing_permissions := false,
      doing_rename := false, files := ["/src/foo.sh"], destination := none, rename := "",
      permissions := "" }
    (Or.inl rfl) (by rfl) (by decide) (by decide) (by decide)).1

/-! ## C16: a missing destination -/

/-- C16: a Files/Programs directive whose argument loop completes with a non-empty
file list and no destination, and a Targets directive whose argument loop completes
with a non-empty target list and neither destination set, fail with
MissingDestination and register no rule. -/
theorem C16_missing_destination (env : Env) (arg0 : String) (tail : List String)
    (gens : List InstallGenerator) :
    (∀ st, HandleFilesMode.parse env arg0 tail FilesState.init = .ok st →
      st.files ≠ [] → st.destination = none →
      HandleFilesMode env (arg0 :: tail) gens
        = ⟨some (InstallError.filesNoDestination arg0), gens⟩) ∧
    (∀ st, HandleTargetsMode.parse env tail TargetsState.init = .ok st →
      st.targets ≠ [] → st.library_destination = none → st.runtime_destination = none →
      HandleTargetsMode env (arg0 :: tail) gens
        = ⟨some InstallError.targetsNoDestination, gens⟩) ∧
    (InstallError.filesNoDestination arg0).message = arg0 ++ " given no DESTINATION!" ∧
    InstallError.targetsNoDestination.message = "TARGETS given no DESTINATION!" := by
  refine ⟨?_, ?_, rfl, rfl⟩
  · intro st hp hf hd
    rw [HandleFilesMode_parse_ok env arg0 tail gens st hp, if_neg hf, if_pos hd]
  · intro st hp ht hl hr
    rw [HandleTargetsMode_parse_ok env arg0 tail gens st hp, if_neg ht, if_pos ⟨hl, hr⟩]

/-- C16 (witness): `FILES a.txt PERMISSIONS OWNER_READ` and `TARGETS myexe LIBRARY`
fail with MissingDestination. -/
theorem C16_missing_destination_witness :
    HandleFilesMode (env0 false) ("FILES" :: ["a.txt", "PERMISSIONS", "OWNER_READ"]) []
      = ⟨some (InstallError.filesNoDestination "FILES"), []⟩ ∧
    HandleTargetsMode (env0 false) ("TARGETS" :: ["myexe", "LIBRARY"]) []
      = ⟨some InstallError.targetsNoDestination, []⟩ :=
  ⟨(C16_missing_destination (env0 false) "FILES" ["a.txt", "PERMISSIONS", "OWNER_READ"] []).1
      { doing_files := false, doing_destination := false, doing_permissions := true,
        doing_rename := false, files := ["/src/a.txt"], destination := none, rename := "",
        permissions := " OWNER_READ" }
      (by rfl) (by decide) rfl,
    (C16_missing_destination (env0 false) "TARGETS" ["myexe", "LIBRARY"] []).2.1
      { doing_targets := false, doing_destination := false, library_settings := true,
        runtime_settings := false, targets := [⟨"myexe", .EXECUTABLE⟩],
        library_destination := none, runtime_destination := none }
      (by rfl) (by decide) rfl rfl⟩

/-! ## C17: an empty item list -/

/-- C17: a Files/Programs directive whose argument loop completes with no file, and a
Targets directive whose argument loop completes with no target, succeed and register
nothing, whatever destination, permissions or rename value were supplied; so do the
one-token directives `FILES` and `PROGRAMS`. The file list is empty exactly when no
token stands between the mode token and the first keyword. -/
theorem C17_empty_item_list (env : Env) (arg0 : String) (tail : List String)
    (gens : List InstallGenerator) :
    (∀ st, HandleFilesMode.parse env arg0 tail FilesState.init = .ok st →
      st.files = [] → HandleFilesMode env (arg0 :: tail) gens = ⟨none, gens⟩) ∧
    (∀ st, HandleFilesMode.parse env arg0 tail FilesState.init = .ok st →
      (st.files = [] ↔ tokenRun isFilesKeyword tail = [])) ∧
    (∀ st, HandleTargetsMode.parse env tail TargetsState.init = .ok st →
      st.targets = [] → HandleTargetsMode env (arg0 :: tail) gens = ⟨none, gens⟩) ∧
    InitialPass env ["FILES"] gens = ⟨none, gens⟩ ∧
    InitialPass env ["PROGRAMS"] gens = ⟨none, gens⟩ ∧
    InitialPass env ["TARGETS"] gens = ⟨none, gens⟩ := by
  refine ⟨?_, ?_, ?_, ?_, ?_, ?_⟩
  · intro st hp hf
    rw [HandleFilesMode_parse_ok env arg0 tail gens st hp, if_pos hf]
  · intro st hp
    rw [(files_parse_init env arg0 tail st hp).1]
    simp
  · intro st hp ht
    rw [HandleTargetsMode_parse_ok env arg0 tail gens st hp, if_pos ht]
  · rw [InitialPass_FILES,
      HandleFilesMode_parse_ok env "FILES" [] gens FilesState.init rfl]
    simp [FilesState.init]
  · rw [InitialPass_PROGRAMS,
      HandleFilesMode_parse_ok env "PROGRAMS" [] gens FilesState.init rfl]
    simp [FilesState.init]
  · rw [InitialPass_TARGETS,
      HandleTargetsMode_parse_ok env "TARGETS" [] gens TargetsState.init rfl]
    simp [TargetsState.init]

/-- C17 (witness): `FILES DESTINATION lib PERMISSIONS OWNER_READ RENAME x` succeeds and
registers nothing. -/
theorem C17_empty_item_list_witness :
    HandleFilesMode (env0 false)
        ("FILES" :: ["DESTINATION", "lib", "PERMISSIONS", "OWNER_READ", "RENAME", "x"]) []
      = ⟨none, []⟩ :=
  (C17_empty_item_list (env0 false) "FILES"
      ["DESTINATION", "lib", "PERMISSIONS", "OWNER_READ", "RENAME", "x"] []).1
    { doing_files := false, doing_destination := false, doing_permissions := false,
      doing_rename := false, files := [], destination := some "lib", rename := "x",
      permissions := " OWNER_READ" }
    (by rfl) rfl

/-! ## C18: `PROGRAMS` against `FILES` -/

/-- One iteration of the files loop under two mode tokens: the same new state, or the
same kind of error on the same token. -/
theorem files_step_two_modes (env : Env) (m1 m2 : String) (st : FilesState) (a : String) :
    (∃ s, HandleFilesMode.step env m1 st a = .ok s ∧
      HandleFilesMode.step env m2 st a = .ok s) ∨
    (HandleFilesMode.step env m1 st a = .error (InstallError.filesDirectory m1 a) ∧
      HandleFilesMode.step env m2 st a = .error (InstallError.filesDirectory m2 a)) ∨
    (HandleFilesMode.step env m1 st a = .error (InstallError.invalidPermission m1 a) ∧
      HandleFilesMode.step env m2 st a = .error (InstallError.invalidPermission m2 a)) ∨
    (HandleFilesMode.step env m1 st a = .error (InstallError.filesUnknownArgument m1 a) ∧
      HandleFilesMode.step env m2 st a
        = .error (InstallError.filesUnknownArgument m2 a)) := by
  by_cases h1 : a = "DESTINATION"
  · refine Or.inl
      ⟨{ st with
          doing_files := false, doing_destination := true,
          doing_permissions := false, doing_rename := false }, ?_, ?_⟩ <;>
      simp [HandleFilesMode.step, h1]
  by_cases h2 : a = "PERMISSIONS"
  · refine Or.inl
      ⟨{ st with
          doing_files := false, doing_destination := false,
          doing_permissions := true, doing_rename := false }, ?_, ?_⟩ <;>
      simp [HandleFilesMode.step, h2]
  by_cases h3 : a = "RENAME"
  · refine Or.inl
      ⟨{ st with
          doing_files := false, doing_destination := false,
          doing_permissions := false, doing_rename := true }, ?_, ?_⟩ <;>
      simp [HandleFilesMode.step, h3]
  cases hf : st.doing_files with
  | true =>
      by_cases hdir : env.FileIsDirectory (resolvedPath env a) = true
      · refine Or.inr (Or.inl ⟨?_, ?_⟩) <;>
          simp [HandleFilesMode.step, h1, h2, h3, hf, resolvedPath_eq_false, hdir]
      · refine Or.inl ⟨{ st with files := st.files ++ [resolvedPath env a] }, ?_, ?_⟩ <;>
          simp [HandleFilesMode.step, h1, h2, h3, hf, resolvedPath_eq_false, hdir]
  | false =>
      cases hd : st.doing_destination with
      | true =>
          refine Or.inl ⟨{ st with destination := some (c_str a), doing_destination := false },
            ?_, ?_⟩ <;>
            simp [HandleFilesMode.step, h1, h2, h3, hf, hd]
      | false =>
          cases hp : st.doing_permissions with
          | true =>
              by_cases hmem : a ∈ permissionTable
              · refine Or.inl ⟨{ st with permissions := st.permissions ++ " " ++ a },
                  ?_, ?_⟩ <;>
                  simp [HandleFilesMode.step, h1, h2, h3, hf, hd, hp, CheckPermissions_eq,
                    hmem]
              · refine Or.inr (Or.inr (Or.inl ⟨?_, ?_⟩)) <;>
                  simp [HandleFilesMode.step, h1, h2, h3, hf, hd, hp, CheckPermissions_eq,
                    hmem]
          | false =>
              cases hr : st.doing_rename with
              | true =>
                  refine Or.inl ⟨{ st with rename := a, doing_rename := false }, ?_, ?_⟩ <;>
                    simp [HandleFilesMode.step, h1, h2, h3, hf, hd, hp, hr]
              | false =>
                  refine Or.inr (Or.inr (Or.inr ⟨?_, ?_⟩)) <;>
                    simp [HandleFilesMode.step, h1, h2, h3, hf, hd, hp, hr]

/-- The files loop under two mode tokens: the same final state, or the same kind of
error on the same token. -/
theorem files_parse_two_modes (env : Env) (m1 m2 : String) (l : List String) :
    ∀ (st : FilesState),
      (∃ s, HandleFilesMode.parse env m1 l st = .ok s ∧
        HandleFilesMode.parse env m2 l st = .ok s) ∨
      (∃ tok,
        (HandleFilesMode.parse env m1 l st = .error (InstallError.filesDirectory m1 tok) ∧
          HandleFilesMode.parse env m2 l st = .error (InstallError.filesDirectory m2 tok)) ∨
        (HandleFilesMode.parse env m1 l st = .error (InstallError.invalidPermission m1 tok) ∧
          HandleFilesMode.parse env m2 l st
            = .error (InstallError.invalidPermission m2 tok)) ∨
        (HandleFilesMode.parse env m1 l st
            = .error (InstallError.filesUnknownArgument m1 tok) ∧
          HandleFilesMode.parse env m2 l st
            = .error (InstallError.filesUnknownArgument m2 tok))) := by
  induction l with
  | nil => intro st; exact Or.inl ⟨st, rfl, rfl⟩
  | cons a rest ih =>
      intro st
      rw [HandleFilesMode.parse, HandleFilesMode.parse]
      rcases files_step_two_modes env m1 m2 st a with ⟨s, h1, h2⟩ | ⟨h1, h2⟩ | ⟨h1, h2⟩ |
        ⟨h1, h2⟩
      · rw [h1, h2]; exact ih s
      · rw [h1, h2]; exact Or.inr ⟨a, Or.inl ⟨rfl, rfl⟩⟩
      · rw [h1, h2]; exact Or.inr ⟨a, Or.inr (Or.inl ⟨rfl, rfl⟩)⟩
      · rw [h1, h2]; exact Or.inr ⟨a, Or.inr (Or.inr ⟨rfl, rfl⟩)⟩

/-- C18: for every token tail and environment the directives `FILES` ++ tail and
`PROGRAMS` ++ tail either both fail, with the same error condition and the same
offending token, differing only in the mode token the error carries, and register
nothing, or both succeed and register the same rules (none, or one FilesRule each)
identical in files, destination, permissions and rename, with `isProgram` false for
`FILES` and true for `PROGRAMS`. -/
theorem C18_programs_is_files_with_flag (env : Env) (tail : List String)
    (gens : List InstallGenerator) :
    ((InitialPass env ("FILES" :: tail) gens).error = none ∧
      (InitialPass env ("PROGRAMS" :: tail) gens).error = none ∧
      (((InitialPass env ("FILES" :: tail) gens).generators = gens ∧
          (InitialPass env ("PROGRAMS" :: tail) gens).generators = gens) ∨
        ∃ fs dest perms ren,
          (InitialPass env ("FILES" :: tail) gens).generators
            = gens ++ [InstallGenerator.files fs dest false perms ren] ∧
          (InitialPass env ("PROGRAMS" :: tail) gens).generators
            = gens ++ [InstallGenerator.files fs dest true perms ren])) ∨
    ((InitialPass env ("FILES" :: tail) gens).generators = gens ∧
      (InitialPass env ("PROGRAMS" :: tail) gens).generators = gens ∧
      ((∃ tok,
          (InitialPass env ("FILES" :: tail) gens).error
            = some (InstallError.filesDirectory "FILES" tok) ∧
          (InitialPass env ("PROGRAMS" :: tail) gens).error
            = some (InstallError.filesDirectory "PROGRAMS" tok)) ∨
        (∃ tok,
          (InitialPass env ("FILES" :: tail) gens).error
            = some (InstallError.invalidPermission "FILES" tok) ∧
          (InitialPass env ("PROGRAMS" :: tail) gens).error
            = some (InstallError.invalidPermission "PROGRAMS" tok)) ∨
        (∃ tok,
          (InitialPass env ("FILES" :: tail) gens).error
            = some (InstallError.filesUnknownArgument "FILES" tok) ∧
          (InitialPass env ("PROGRAMS" :: tail) gens).error
            = some (InstallError.filesUnknownArgument "PROGRAMS" tok)) ∨
        ((InitialPass env ("FILES" :: tail) gens).error
            = some (InstallError.filesNoDestination "FILES") ∧
          (InitialPass env ("PROGRAMS" :: tail) gens).error
            = some (InstallError.filesNoDestination "PROGRAMS")) ∨
        ((InitialPass env ("FILES" :: tail) gens).error
            = some (InstallError.renameMultipleFiles "FILES") ∧
          (InitialPass env ("PROGRAMS" :: tail) gens).error
            = some (InstallError.renameMultipleFiles "PROGRAMS")))) := by
  rw [InitialPass_FILES, InitialPass_PROGRAMS]
  rcases files_parse_two_modes env "FILES" "PROGRAMS" tail FilesState.init with
    ⟨s, h1, h2⟩ | ⟨tok, ⟨h1, h2⟩ | ⟨h1, h2⟩ | ⟨h1, h2⟩⟩
  · rw [HandleFilesMode_parse_ok env "FILES" tail gens s h1,
      HandleFilesMode_parse_ok env "PROGRAMS" tail gens s h2]
    by_cases hf : s.files = []
    · rw [if_pos hf, if_pos hf]
      exact Or.inl ⟨rfl, rfl, Or.inl ⟨rfl, rfl⟩⟩
    · rw [if_neg hf, if_neg hf]
      by_cases hd : s.destination = none
      · rw [if_pos hd, if_pos hd]
        exact Or.inr ⟨rfl, rfl, Or.inr (Or.inr (Or.inr (Or.inl ⟨rfl, rfl⟩)))⟩
      · rw [if_neg hd, if_neg hd]
        by_cases hr : s.rename ≠ "" ∧ s.files.length > 1
        · rw [if_pos hr, if_pos hr]
          exact Or.inr ⟨rfl, rfl, Or.inr (Or.inr (Or.inr (Or.inr ⟨rfl, rfl⟩)))⟩
        · rw [if_neg hr, if_neg hr]
          exact Or.inl ⟨rfl, rfl, Or.inr ⟨_, _, _, _, rfl, rfl⟩⟩
  · rw [HandleFilesMode_parse_error env "FILES" tail gens _ h1,
      HandleFilesMode_parse_error env "PROGRAMS" tail gens _ h2]
    exact Or.inr ⟨rfl, rfl, Or.inl ⟨tok, rfl, rfl⟩⟩
  · rw [HandleFilesMode_parse_error env "FILES" tail gens _ h1,
      HandleFilesMode_parse_error env "PROGRAMS" tail gens _ h2]
    exact Or.inr ⟨rfl, rfl, Or.inr (Or.inl ⟨tok, rfl, rfl⟩)⟩
  · rw [HandleFilesMode_parse_error env "FILES" tail gens _ h1,
      HandleFilesMode_parse_error env "PROGRAMS" tail gens _ h2]
    exact Or.inr ⟨rfl, rfl, Or.inr (Or.inr (Or.inl ⟨tok, rfl, rfl⟩))⟩

/-! ## C19: a bare token in the neutral sub-state -/

theorem isFilesKeyword_eq_false (a : String) (h : isFilesKeyword a = false) :
    a ≠ "DESTINATION" ∧ a ≠ "PERMISSIONS" ∧ a ≠ "RENAME" := by
  simpa [isFilesKeyword, and_assoc] using h

/-- C19: after tokens `pre` read without error, in targets mode a token `tok` that is
not a keyword and comes right after a `LIBRARY` or `RUNTIME` keyword, or right after
the value `v` of a `DESTINATION` keyword, makes the directive fail with
UnknownArgument naming `tok`; in files mode so does a token `tok` that is not a
keyword and comes right after the value `v` of a `DESTINATION` or `RENAME` keyword.
Nothing is registered, whatever follows. -/
theorem C19_neutral_state_rejects (env : Env) (pre : List String) (v tok : String)
    (post : List String) (gens : List InstallGenerator) :
    (∀ st0, HandleTargetsMode.parse env pre TargetsState.init = .ok st0 →
      isTargetsKeyword tok = false →
      InitialPass env ("TARGETS" :: (pre ++ "LIBRARY" :: tok :: post)) gens
        = ⟨some (InstallError.targetsUnknownArgument tok), gens⟩ ∧
      InitialPass env ("TARGETS" :: (pre ++ "RUNTIME" :: tok :: post)) gens
        = ⟨some (InstallError.targetsUnknownArgument tok), gens⟩ ∧
      (isTargetsKeyword v = false →
        InitialPass env ("TARGETS" :: (pre ++ "DESTINATION" :: v :: tok :: post)) gens
          = ⟨some (InstallError.targetsUnknownArgument tok), gens⟩)) ∧
    (∀ arg0 st0, arg0 = "FILES" ∨ arg0 = "PROGRAMS" →
      HandleFilesMode.parse env arg0 pre FilesState.init = .ok st0 →
      isFilesKeyword tok = false → isFilesKeyword v = false →
      InitialPass env (arg0 :: (pre ++ "DESTINATION" :: v :: tok :: post)) gens
        = ⟨some (InstallError.filesUnknownArgument arg0 tok), gens⟩ ∧
      InitialPass env (arg0 :: (pre ++ "RENAME" :: v :: tok :: post)) gens
        = ⟨some (InstallError.filesUnknownArgument arg0 tok), gens⟩) ∧
    (InstallError.targetsUnknownArgument tok).message
      = "TARGETS given unknown argument \"" ++ tok ++ "\"." ∧
    (∀ arg0, (InstallError.filesUnknownArgument arg0 tok).message
      = arg0 ++ " given unknown argument \"" ++ tok ++ "\".") := by
  refine ⟨?_, ?_, rfl, fun _ => rfl⟩
  · intro st0 hpre htok
    obtain ⟨ht1, ht2, ht3⟩ := isTargetsKeyword_eq_false tok htok
    refine ⟨?_, ?_, ?_⟩
    · rw [InitialPass_TARGETS]
      apply HandleTargetsMode_parse_error
      rw [targets_parse_append, hpre]
      simp [HandleTargetsMode.parse, HandleTargetsMode.step, ht1, ht2, ht3]
    · rw [InitialPass_TARGETS]
      apply HandleTargetsMode_parse_error
      rw [targets_parse_append, hpre]
      simp [HandleTargetsMode.parse, HandleTargetsMode.step, ht1, ht2, ht3]
    · intro hv
      obtain ⟨hv1, hv2, hv3⟩ := isTargetsKeyword_eq_false v hv
      rw [InitialPass_TARGETS]
      apply HandleTargetsMode_parse_error
      rw [targets_parse_append, hpre]
      cases hl : st0.library_settings <;> cases hr : st0.runtime_settings <;>
        simp [HandleTargetsMode.parse, HandleTargetsMode.step, ht1, ht2, ht3, hv1, hv2, hv3,
          hl, hr]
  · intro arg0 st0 hmode hpre htok hv
    obtain ⟨ht1, ht2, ht3⟩ := isFilesKeyword_eq_false tok htok
    obtain ⟨hv1, hv2, hv3⟩ := isFilesKeyword_eq_false v hv
    refine ⟨?_, ?_⟩
    · rw [InitialPass_files_mode env arg0 _ gens hmode]
      apply HandleFilesMode_parse_error
      rw [files_parse_append, hpre]
      simp [HandleFilesMode.parse, HandleFilesMode.step, ht1, ht2, ht3, hv1, hv2, hv3]
    · rw [InitialPass_files_mode env arg0 _ gens hmode]
      apply HandleFilesMode_parse_error
      rw [files_parse_append, hpre]
      simp [HandleFilesMode.parse, HandleFilesMode.step, ht1, ht2, ht3, hv1, hv2, hv3]

/-- C19 (witness): `TARGETS myexe LIBRARY extra DESTINATION lib` and
`FILES a.txt DESTINATION lib extra` fail with UnknownArgument naming `extra`. -/
theorem C19_neutral_state_rejects_witness :
    InitialPass (env0 false)
        ("TARGETS" :: (["myexe"] ++ "LIBRARY" :: "extra" :: ["DESTINATION", "lib"])) []
      = ⟨some (InstallError.targetsUnknownArgument "extra"), []⟩ ∧
    InitialPass (env0 false)
        ("FILES" :: (["a.txt"] ++ "DESTINATION" :: "lib" :: "extra" :: ["DESTINATION", "lib"])) []
      = ⟨some (InstallError.filesUnknownArgument "FILES" "extra"), []⟩ :=
  ⟨((C19_neutral_state_rejects (env0 false) ["myexe"] "lib" "extra" ["DESTINATION", "lib"]
        []).1
      { doing_targets := true, doing_destination := false, library_settings := true,
        runtime_settings := true, targets := [⟨"myexe", .EXECUTABLE⟩],
        library_destination := none, runtime_destination := none }
      (by rfl) (by decide)).1,
    ((C19_neutral_state_rejects (env0 false) ["a.txt"] "lib" "extra" ["DESTINATION", "lib"]
        []).2.1 "FILES"
      { doing_files := true, doing_destination := false, doing_permissions := false,
        doing_rename := false, files := ["/src/a.txt"], destination := none, rename := "",
        permissions := "" }
      (Or.inl rfl) (by rfl) (by decide) (by decide)).1⟩

/-! ## C20: script mode and its pair grammar -/

end cmInstallCommand
